import Mathlib

/-!
Verification of the ZairyuMate manifest patcher scripts
(`ios/ZairyuMate/*.py`): a shallow embedding of the line-oriented
rewrite loops, identifier allocators, group synthesis and post-write
validation of the Python sources, together with theorems settling the
frozen claims about them.

The documents are modelled as Python strings / line lists; each script
variant gets its own namespace whose definitions are direct translations
of the corresponding Python functions and loops.
-/

namespace ZairyuMate

/-! ### Python string primitives -/

/-- Python's substring test `pat in hay`, on character lists. -/
def listContains (pat : List Char) : List Char → Bool
  | [] => pat.isEmpty
  | c :: t => pat.isPrefixOf (c :: t) || listContains pat t

/-- Python's substring test `pat in hay` on strings. -/
def strContains (hay pat : String) : Bool :=
  listContains pat.data hay.data

/-- The characters Python's `str.splitlines` treats as line boundaries. -/
def pyLineBreak (c : Char) : Bool :=
  c = '\n' || c = '\r' || c = '\x0b' || c = '\x0c' ||
  c = '\x1c' || c = '\x1d' || c = '\x1e' || c = '\x85' ||
  c = '\u2028' || c = '\u2029'

/-- Worker for `pySplitlines`: `acc` is the current (reversed) line. -/
def pySplitlinesAux : List Char → List Char → List String
  | [], acc => if acc.isEmpty then [] else [String.mk acc.reverse]
  | '\r' :: '\n' :: rest, acc => String.mk acc.reverse :: pySplitlinesAux rest []
  | c :: rest, acc =>
    if pyLineBreak c then String.mk acc.reverse :: pySplitlinesAux rest []
    else pySplitlinesAux rest (c :: acc)

/-- Python's `str.splitlines()` (no terminators kept, no trailing empty line). -/
def pySplitlines (s : String) : List String :=
  pySplitlinesAux s.data []

/-- Python's `'\n'.join(lines)`. -/
def joinNL : List String → String
  | [] => ""
  | [s] => s
  | s :: rest => s ++ "\n" ++ joinNL rest

/-! ### MD5 (RFC 1321), used by the `gen_id` allocators -/

def mask32 : Nat := 4294967296

def add32 (a b : Nat) : Nat := (a + b) % mask32

def not32 (x : Nat) : Nat := 4294967295 - x % mask32

def rotl32 (x s : Nat) : Nat :=
  ((x % mask32) * 2 ^ s) % mask32 ||| (x % mask32) / 2 ^ (32 - s)

def md5K : List Nat :=
  [0xd76aa478, 0xe8c7b756, 0x242070db, 0xc1bdceee,
   0xf57c0faf, 0x4787c62a, 0xa8304613, 0xfd469501,
   0x698098d8, 0x8b44f7af, 0xffff5bb1, 0x895cd7be,
   0x6b901122, 0xfd987193, 0xa679438e, 0x49b40821,
   0xf61e2562, 0xc040b340, 0x265e5a51, 0xe9b6c7aa,
   0xd62f105d, 0x02441453, 0xd8a1e681, 0xe7d3fbc8,
   0x21e1cde6, 0xc33707d6, 0xf4d50d87, 0x455a14ed,
   0xa9e3e905, 0xfcefa3f8, 0x676f02d9, 0x8d2a4c8a,
   0xfffa3942, 0x8771f681, 0x6d9d6122, 0xfde5380c,
   0xa4beea44, 0x4bdecfa9, 0xf6bb4b60, 0xbebfbc70,
   0x289b7ec6, 0xeaa127fa, 0xd4ef3085, 0x04881d05,
   0xd9d4d039, 0xe6db99e5, 0x1fa27cf8, 0xc4ac5665,
   0xf4292244, 0x432aff97, 0xab9423a7, 0xfc93a039,
   0x655b59c3, 0x8f0ccc92, 0xffeff47d, 0x85845dd1,
   0x6fa87e4f, 0xfe2ce6e0, 0xa3014314, 0x4e0811a1,
   0xf7537e82, 0xbd3af235, 0x2ad7d2bb, 0xeb86d391]

def md5S : List Nat :=
  [7, 12, 17, 22, 7, 12, 17, 22, 7, 12, 17, 22, 7, 12, 17, 22,
   5, 9, 14, 20, 5, 9, 14, 20, 5, 9, 14, 20, 5, 9, 14, 20,
   4, 11, 16, 23, 4, 11, 16, 23, 4, 11, 16, 23, 4, 11, 16, 23,
   6, 10, 15, 21, 6, 10, 15, 21, 6, 10, 15, 21, 6, 10, 15, 21]

/-- One MD5 operation at round `i` on state `(a, b, c, d)` with message words `m`. -/
def md5Step (m : List Nat) (st : Nat × Nat × Nat × Nat) (i : Nat) :
    Nat × Nat × Nat × Nat :=
  let (a, b, c, d) := st
  let f :=
    if i < 16 then (b &&& c) ||| (not32 b &&& d)
    else if i < 32 then (d &&& b) ||| (not32 d &&& c)
    else if i < 48 then b ^^^ c ^^^ d
    else c ^^^ (b ||| not32 d)
  let g :=
    if i < 16 then i
    else if i < 32 then (5 * i + 1) % 16
    else if i < 48 then (3 * i + 5) % 16
    else (7 * i) % 16
  let f' := add32 (add32 (add32 f a) (md5K.getD i 0)) (m.getD g 0)
  (d, add32 b (rotl32 f' (md5S.getD i 0)), b, c)

/-- Process a 16-word chunk, updating the running state. -/
def md5Chunk (h : Nat × Nat × Nat × Nat) (m : List Nat) : Nat × Nat × Nat × Nat :=
  let (a0, b0, c0, d0) := h
  let (a, b, c, d) := (List.range 64).foldl (md5Step m) (a0, b0, c0, d0)
  (add32 a0 a, add32 b0 b, add32 c0 c, add32 d0 d)

/-- Split bytes into little-endian 32-bit words. -/
def toWords : List Nat → List Nat
  | b0 :: b1 :: b2 :: b3 :: rest =>
    (b0 + 256 * b1 + 65536 * b2 + 16777216 * b3) :: toWords rest
  | _ => []

/-- Split a byte list into 64-byte chunks (`fuel` only bounds the
recursion; `bytes.length` steps always suffice since each step drops
64 bytes). -/
def chunks64Aux : Nat → List Nat → List (List Nat)
  | 0, bytes => [bytes]
  | fuel + 1, bytes =>
    if bytes.length ≤ 64 then [bytes]
    else bytes.take 64 :: chunks64Aux fuel (bytes.drop 64)

def chunks64 (bytes : List Nat) : List (List Nat) :=
  chunks64Aux bytes.length bytes

/-- MD5 padding: `0x80`, zeros to 56 mod 64, then the bit length in 8 LE bytes. -/
def md5Pad (msg : List Nat) : List Nat :=
  let bitLen := 8 * msg.length
  let zeros := (120 - (msg.length + 1) % 64) % 64
  msg ++ [0x80] ++ List.replicate zeros 0 ++
    (List.range 8).map (fun i => bitLen / 256 ^ i % 256)

/-- A 32-bit word as 8 lowercase hex digits, little-endian byte order. -/
def hexLE32 (w : Nat) : List Char :=
  let hexDigit := fun (n : Nat) => "0123456789abcdef".data.getD n '0'
  ((List.range 4).map (fun i => w / 256 ^ i % 256)).flatMap
    (fun b => [hexDigit (b / 16), hexDigit (b % 16)])

/-- MD5 digest of a byte string, as the 32-character lowercase hex string. -/
def md5Hex (msg : List Nat) : String :=
  let initSt := (0x67452301, 0xefcdab89, 0x98badcfe, 0x10325476)
  let (a, b, c, d) := (chunks64 (md5Pad msg)).foldl (fun h ch => md5Chunk h (toWords ch)) initSt
  String.mk (hexLE32 a ++ hexLE32 b ++ hexLE32 c ++ hexLE32 d)

/-- UTF-8 encoding of one code point. -/
def utf8Bytes (c : Char) : List Nat :=
  let n := c.toNat
  if n < 0x80 then [n]
  else if n < 0x800 then [0xC0 + n / 64, 0x80 + n % 64]
  else if n < 0x10000 then [0xE0 + n / 4096, 0x80 + n / 64 % 64, 0x80 + n % 64]
  else [0xF0 + n / 262144, 0x80 + n / 4096 % 64, 0x80 + n / 64 % 64, 0x80 + n % 64]

/-- Python's `str.encode()` (UTF-8). -/
def pyEncode (s : String) : List Nat :=
  s.data.flatMap utf8Bytes

/-- `gen_id` of `manual_fix.py` / `ULTIMATE_FIX.py` / `fix_project.py`:
`hashlib.md5(str(seed).encode()).hexdigest().upper()[:24]`. -/
def gen_id (seed : Nat) : String :=
  String.mk (((md5Hex (pyEncode (Nat.repr seed))).data.map Char.toUpper).take 24)

/-- Worker for Python's `str.split(sep)` with a one-character separator. -/
def pySplitCharAux (c : Char) : List Char → List Char → List String
  | [], acc => [String.mk acc.reverse]
  | x :: t, acc =>
    if x = c then String.mk acc.reverse :: pySplitCharAux c t []
    else pySplitCharAux c t (x :: acc)

/-- Python's `s.split(c)` for a one-character separator (keeps empty pieces). -/
def pySplitChar (c : Char) (s : String) : List String :=
  pySplitCharAux c s.data []

/-- Python's `'/'.join(parts)`. -/
def joinSlash : List String → String
  | [] => ""
  | [s] => s
  | s :: rest => s ++ "/" ++ joinSlash rest

/-- Copy lines until one containing `tok` is met; returns the copied
prefix and the rest (which, if nonempty, starts with the `tok` line).
Models the Python loops `while i < len(lines) and tok not in lines[i]:
output.append(lines[i]); i += 1`. -/
def copyUntil (tok : String) : List String → List String × List String
  | [] => ([], [])
  | l :: ls =>
    if strContains l tok then ([], l :: ls)
    else
      let p := copyUntil tok ls
      (l :: p.1, p.2)

theorem copyUntil_append (tok : String) (ls : List String) :
    (copyUntil tok ls).1 ++ (copyUntil tok ls).2 = ls := by
  induction ls with
  | nil => rfl
  | cons l t ih =>
    by_cases h : strContains l tok = true <;> simp [copyUntil, h, ih]

theorem copyUntil_snd_length (tok : String) (ls : List String) :
    (copyUntil tok ls).2.length ≤ ls.length := by
  induction ls with
  | nil => simp [copyUntil]
  | cons l t ih =>
    by_cases h : strContains l tok = true <;> simp [copyUntil, h]
    omega

theorem copyUntil_not_contains (tok : String) (ls : List String)
    (h : ∀ l ∈ ls, strContains l tok = false) :
    copyUntil tok ls = (ls, []) := by
  induction ls with
  | nil => rfl
  | cons l t ih =>
    have hl := h l (by simp)
    have ht := ih (fun x hx => h x (by simp [hx]))
    simp [copyUntil, hl, ht]

theorem copyUntil_stops (tok : String) (pre : List String) (t : String)
    (rest : List String) (hpre : ∀ l ∈ pre, strContains l tok = false)
    (ht : strContains t tok = true) :
    copyUntil tok (pre ++ t :: rest) = (pre, t :: rest) := by
  induction pre with
  | nil => simp [copyUntil, ht]
  | cons l ls ih =>
    have hl := hpre l (by simp)
    have := ih (fun x hx => hpre x (by simp [hx]))
    simp [copyUntil, hl, this]

/-- The body of the Sources-phase branch after the four header lines:
copy existing entries up to the `);` line, then up to the `\x7d;` line
(the Python `while ... not in lines[i]` loops plus the unguarded
`lines[i]` reads, whose `IndexError` is modelled by `none`). -/
def phaseSplit (rest2 : List String) :
    Option (List String × String × List String × String × List String) :=
  match copyUntil ");" rest2 with
  | (_, []) => none
  | (a, cl :: rest3) =>
    match copyUntil "\x7d;" rest3 with
    | (_, []) => none
    | (c, bl :: rest4) => some (a, cl, c, bl, rest4)

theorem phaseSplit_append {rest2 a : List String} {cl : String} {c : List String}
    {bl : String} {rest4 : List String}
    (h : phaseSplit rest2 = some (a, cl, c, bl, rest4)) :
    rest2 = a ++ cl :: (c ++ bl :: rest4) := by
  unfold phaseSplit at h
  split at h
  · exact absurd h (by simp)
  · rename_i a0 cl0 rest3 hcu
    split at h
    · exact absurd h (by simp)
    · rename_i c0 bl0 rest40 hcu2
      simp only [Option.some.injEq, Prod.mk.injEq] at h
      obtain ⟨h1, h2, h3, h4, h5⟩ := h
      subst h1
      subst h2
      subst h3
      subst h4
      subst h5
      have e1 := copyUntil_append ");" rest2
      have e2 := copyUntil_append "\x7d;" rest3
      rw [hcu] at e1
      rw [hcu2] at e2
      simp only at e1 e2
      rw [← e1, ← e2]

theorem phaseSplit_length {rest2 a : List String} {cl : String} {c : List String}
    {bl : String} {rest4 : List String}
    (h : phaseSplit rest2 = some (a, cl, c, bl, rest4)) :
    rest4.length + 2 ≤ rest2.length := by
  have := phaseSplit_append h
  subst this
  simp
  omega

/-! ### `manual_fix.py` -/

namespace ManualFix

def endBuildMark : String := "/* End PBXBuildFile section */"
def endRefMark : String := "/* End PBXFileReference section */"
def srcAnchor : String := "A10000042 /* Sources */"
def phaseIsa : String := "isa = PBXSourcesBuildPhase"

/-- The three entry lists from the generation loop of `manual_fix.py`
(lines 39–51): per file, `fid = gen_id(seed)`, `bid = gen_id(seed+1)`,
`seed += 2`, and one rendered file-reference, build-file and
sources-membership line each (the sources line is emitted for every
file, with no kind check). -/
structure Entries where
  refs : List String
  builds : List String
  sources : List String
deriving DecidableEq

def ftypeFor (fname : String) : String :=
  if strContains fname ".xcdatamodeld" then "wrapper.xcdatamodeld" else "sourcecode.swift"

def refLine (fid fname : String) : String :=
  "\t\t" ++ fid ++ " /* " ++ fname ++ " */ = \x7bisa = PBXFileReference; lastKnownFileType = "
    ++ ftypeFor fname ++ "; path = " ++ fname ++ "; sourceTree = \"<group>\"; \x7d;"

def buildLine (bid fid fname : String) : String :=
  "\t\t" ++ bid ++ " /* " ++ fname ++ " in Sources */ = \x7bisa = PBXBuildFile; fileRef = "
    ++ fid ++ " /* " ++ fname ++ " */; \x7d;"

def sourceLine (bid fname : String) : String :=
  "\t\t\t\t" ++ bid ++ " /* " ++ fname ++ " in Sources */,"

def genEntries : List String → Nat → Entries
  | [], _ => ⟨[], [], []⟩
  | f :: fs, seed =>
    let fid := gen_id seed
    let bid := gen_id (seed + 1)
    let rest := genEntries fs (seed + 2)
    ⟨refLine fid f :: rest.refs,
     buildLine bid fid f :: rest.builds,
     sourceLine bid f :: rest.sources⟩

/-- The line-by-line rewrite loop of `manual_fix.py` (lines 56–113).
`none` models an uncaught `IndexError` (an out-of-range `lines[i]`). -/
def rewriteAux (builds refs sources : List String) : List String → Option (List String)
  | [] => some []
  | line :: rest =>
    if strContains line endBuildMark then
      (rewriteAux builds refs sources rest).map (fun o => builds ++ line :: o)
    else if strContains line endRefMark then
      (rewriteAux builds refs sources rest).map (fun o => refs ++ line :: o)
    else if strContains line srcAnchor then
      match _hr : rest with
      | [] => none
      | l1 :: rest1 =>
        if strContains l1 phaseIsa then
          match _hr1 : rest1 with
          | l2 :: l3 :: rest2 =>
            match _hp : phaseSplit rest2 with
            | none => none
            | some (a, cl, c, bl, rest4) =>
              (rewriteAux builds refs sources rest4).map
                (fun o => line :: l1 :: l2 :: l3 :: (a ++ sources ++ cl :: (c ++ bl :: o)))
          | _ => none
        else (rewriteAux builds refs sources rest).map (fun o => line :: o)
    else (rewriteAux builds refs sources rest).map (fun o => line :: o)
termination_by lines => lines.length
decreasing_by
  all_goals try subst _hr
  all_goals try subst _hr1
  all_goals first
    | (simp only [List.length_cons]; omega)
    | (have h1 := phaseSplit_length _hp
       simp only [List.length_cons]
       omega)

inductive Outcome
  | ok
  | validationFailed
  | crashed
deriving DecidableEq

/-- The post-write sentinel validation of `manual_fix.py` (lines 124–125). -/
def validate (result : String) : Bool :=
  strContains result endBuildMark && strContains result endRefMark

/-- One run's externally visible effect: the sequence of writes to the
manifest file (in order), the backup file's content, and the reported
outcome. -/
structure RunState where
  writes : List String
  backupSaved : Option String
  outcome : Outcome
deriving DecidableEq

/-- The full `manual_fix.py` pipeline on a loaded document `original`
and the externally discovered `newFiles`: back up, generate entries
(seed 60000), rewrite, write `'\n'.join(output) + '\n'`, validate, and
restore the original text on validation failure. -/
def run (original : String) (newFiles : List String) : RunState :=
  let lines := pySplitlines original
  let e := genEntries newFiles 60000
  match rewriteAux e.builds e.refs e.sources lines with
  | none => ⟨[], some original, .crashed⟩
  | some out =>
    let result := joinNL out ++ "\n"
    if validate result then ⟨[result], some original, .ok⟩
    else ⟨[result, original], some original, .validationFailed⟩

/-- The manifest's on-disk content after a run: the last write, or the
pre-run content if nothing was written. -/
def finalDisk (original : String) (st : RunState) : String :=
  st.writes.foldl (fun _ w => w) original

end ManualFix

/-! ### `ULTIMATE_FIX.py` -/

namespace UltimateFix

def endBuildMark : String := "/* End PBXBuildFile section */"
def endRefMark : String := "/* End PBXFileReference section */"
def endGroupMark : String := "/* End PBXGroup section */"
def srcAnchor : String := "A10000042 /* Sources */"
def phaseIsa : String := "isa = PBXSourcesBuildPhase"

/-- The hard-coded existing group-ID table (`BASE_GROUPS`, lines 34–50),
in source order. -/
def BASE_GROUPS : List (String × String) :=
  [("Core", "A10000024"),
   ("Core/Models", "A10000033"),
   ("Core/Services", "A10000034"),
   ("Core/Storage", "A10000035"),
   ("Core/Utilities", "A10000036"),
   ("Features", "A10000023"),
   ("Features/Home", "A10000028"),
   ("Features/Profile", "A10000029"),
   ("Features/Documents", "A10000030"),
   ("Features/Timeline", "A10000031"),
   ("Features/Settings", "A10000032"),
   ("UI", "A10000025"),
   ("UI/Components", "A10000037"),
   ("UI/Styles", "A10000038"),
   ("UI/Theme", "A10000039")]

def baseKeys : List String := BASE_GROUPS.map Prod.fst

/-- Insertion into a sorted list. -/
def insertSorted (x : String) : List String → List String
  | [] => [x]
  | y :: t => if decide (x ≤ y) then x :: y :: t else y :: insertSorted x t

/-- Python's `sorted` on strings (code-point lexicographic order),
as an insertion sort; it agrees with `sorted` on the duplicate-free
lists it is applied to. -/
def sortStrings : List String → List String
  | [] => []
  | x :: t => insertSorted x (sortStrings t)

/-- `new_groups_needed = sorted(set(file_map.values()) - set(BASE_GROUPS.keys()))`
(line 67).  `fm` is the `file_map` dict as an ordered association list
`filename → group path`. -/
def newGroupsNeeded (fm : List (String × String)) : List String :=
  sortStrings (((fm.map Prod.snd).dedup).filter (fun p => !baseKeys.contains p))

/-- One synthesized subgroup record (lines 77–90): id from the 80000 seed
cursor, display name and relative path equal to the last path segment,
parent equal to the preceding segments. -/
structure Subgroup where
  key : String
  id : String
  name : String
  pathSeg : String
  parent : String
deriving DecidableEq

def mkSubgroups : List String → Nat → List Subgroup
  | [], _ => []
  | p :: ps, seed =>
    let parts := pySplitChar '/' p
    { key := p, id := gen_id seed, name := parts.getLastD "",
      pathSeg := parts.getLastD "",
      parent := joinSlash parts.dropLast } :: mkSubgroups ps (seed + 1)

/-- The subgroup records created by one run (seed cursor starts at 80000). -/
def subgroupsFor (fm : List (String × String)) : List Subgroup :=
  mkSubgroups (newGroupsNeeded fm) 80000

/-- `BASE_GROUPS` after line 89 added every new subgroup's id under its path. -/
def augGroups (fm : List (String × String)) : List (String × String) :=
  BASE_GROUPS ++ (subgroupsFor fm).map (fun g => (g.key, g.id))

/-- Per-file plan of the generation loop (lines 93–111): ids from the
90000 seed cursor, two per file, in `file_map` order. -/
structure FilePlan where
  fname : String
  gpath : String
  fid : String
  bid : String
deriving DecidableEq

def mkFilePlans : List (String × String) → Nat → List FilePlan
  | [], _ => []
  | (fname, gpath) :: fs, seed =>
    { fname := fname, gpath := gpath, fid := gen_id seed, bid := gen_id (seed + 1) }
      :: mkFilePlans fs (seed + 2)

def filePlans (fm : List (String × String)) : List FilePlan :=
  mkFilePlans fm 90000

def refsFor (fm : List (String × String)) : List String :=
  (filePlans fm).map (fun p => ManualFix.refLine p.fid p.fname)

def buildsFor (fm : List (String × String)) : List String :=
  (filePlans fm).map (fun p => ManualFix.buildLine p.bid p.fid p.fname)

def sourcesFor (fm : List (String × String)) : List String :=
  (filePlans fm).map (fun p => ManualFix.sourceLine p.bid p.fname)

/-- `subgroups[group_path]['files']`: the `(fid, fname)` pairs appended
for files whose group path is the given subgroup key (lines 110–111). -/
def subgroupFilesFor (fm : List (String × String)) (key : String) : List (String × String) :=
  (filePlans fm).filterMap (fun p => if p.gpath == key then some (p.fid, p.fname) else none)

/-- `base_group_files[gid]` (lines 114–118): files whose group path is an
original base group (present in the augmented table but not a subgroup)
mapping to `gid`. -/
def baseFilesFor (fm : List (String × String)) (gid : String) : List (String × String) :=
  (filePlans fm).filterMap (fun p =>
    if ((augGroups fm).lookup p.gpath).isSome
        && !(subgroupsFor fm).any (fun g => g.key == p.gpath)
        && ((augGroups fm).lookup p.gpath == some gid)
    then some (p.fid, p.fname) else none)

/-- A rendered child-list membership line `\t\t\t\t{id} /* {name} */,`. -/
def groupChildLine (cid cname : String) : String :=
  "\t\t\t\t" ++ cid ++ " /* " ++ cname ++ " */,"

/-- The subgroup definition block emitted before the group-section end
sentinel (lines 216–226). -/
def subgroupDefLines (sgFiles : String → List (String × String)) (g : Subgroup) : List String :=
  ("\t\t" ++ g.id ++ " /* " ++ g.name ++ " */ = \x7b") ::
  "\t\t\tisa = PBXGroup;" ::
  "\t\t\tchildren = (" ::
  ((sgFiles g.key).map (fun fc => groupChildLine fc.1 fc.2) ++
   ["\t\t\t);",
    "\t\t\tpath = " ++ g.pathSeg ++ ";",
    "\t\t\tsourceTree = \"<group>\";",
    "\t\t\x7d;"])

/-- The `for group_path, group_id in BASE_GROUPS.items()` body of
branch 4 (lines 171–212).  The `line` argument is the loop's stale `line`
variable, which the branch keeps testing (and re-emitting) even after a
match advanced `i`; the returned Bool records whether any group matched.
`none` models an uncaught `IndexError`. -/
def groupScanAux (bf : String → List (String × String)) (sgs : List Subgroup) :
    List (String × String) → String → List String → Bool →
    Option (List String × List String × Bool)
  | [], _, rem, matched => some ([], rem, matched)
  | (gpath, gid) :: gs, line, rem, matched =>
    if strContains line (gid ++ " /* ") && strContains line "= \x7b" then
      match rem with
      | [] => groupScanAux bf sgs gs line rem matched
      | l1 :: rem1 =>
        if strContains l1 "isa = PBXGroup" then
          match copyUntil "children = (" rem1 with
          | (_, []) => none
          | (p1, ch :: rem2) =>
            match copyUntil ");" rem2 with
            | (_, []) => none
            | (q1, cp :: rem3) =>
              match copyUntil "\x7d;" rem3 with
              | (_, []) => none
              | (r1, cb :: rem4) =>
                match groupScanAux bf sgs gs line rem4 true with
                | none => none
                | some (e, rem', m) =>
                  some ((line :: l1 :: (p1 ++ ch :: (q1 ++
                    (bf gid).map (fun fc => groupChildLine fc.1 fc.2) ++
                    ((sgs.filter (fun g => g.parent == gpath)).map
                      (fun g => groupChildLine g.id g.name)) ++
                    cp :: (r1 ++ [cb])))) ++ e, rem', m)
        else groupScanAux bf sgs gs line rem matched
    else groupScanAux bf sgs gs line rem matched

theorem groupScanAux_rem_length (bf : String → List (String × String))
    (sgs : List Subgroup) :
    ∀ (gs : List (String × String)) (line : String) (rem : List String)
      (matched : Bool) (e : List String) (rem' : List String) (m : Bool),
      groupScanAux bf sgs gs line rem matched = some (e, rem', m) →
      rem'.length ≤ rem.length := by
  intro gs
  induction gs with
  | nil =>
    intro line rem matched e rem' m h
    simp only [groupScanAux] at h
    cases h
    exact le_refl _
  | cons g gs ih =>
    intro line rem matched e rem' m h
    obtain ⟨gpath, gid⟩ := g
    simp only [groupScanAux] at h
    split at h
    · split at h
      · exact ih _ _ _ _ _ _ h
      · rename_i l1 rem1
        split at h
        · split at h
          · exact absurd h (by simp)
          · rename_i p1 ch rem2 hcu1
            split at h
            · exact absurd h (by simp)
            · rename_i q1 cp rem3 hcu2
              split at h
              · exact absurd h (by simp)
              · rename_i r1 cb rem4 hcu3
                split at h
                · exact absurd h (by simp)
                all_goals
                  rename_i hrec
                all_goals
                  simp only [Option.some.injEq, Prod.mk.injEq] at h
                all_goals
                  obtain ⟨hA, hB, hC⟩ := h
                all_goals
                  subst hB
                all_goals
                  have h4 := ih _ _ _ _ _ _ hrec
                all_goals
                  have c1 : (copyUntil "children = (" rem1).2.length ≤ rem1.length :=
                    copyUntil_snd_length _ _
                  have c2 : (copyUntil ");" rem2).2.length ≤ rem2.length :=
                    copyUntil_snd_length _ _
                  have c3 : (copyUntil "\x7d;" rem3).2.length ≤ rem3.length :=
                    copyUntil_snd_length _ _
                  rw [hcu1] at c1
                  rw [hcu2] at c2
                  rw [hcu3] at c3
                  simp only [List.length_cons] at c1 c2 c3 ⊢
                  omega
        · exact ih _ _ _ _ _ _ h
    · exact ih _ _ _ _ _ _ h

/-- One iteration of the main while-loop of `ULTIMATE_FIX.py`
(lines 130–229) on the current `line` and the remaining lines: returns
the lines appended to `output` during the iteration and the lines left
for the next iteration (`none` models an uncaught `IndexError`).
Branches in source order: build-file end sentinel, file-reference end
sentinel, the Sources build phase (lookahead guarded by `i+1 <
len(lines)`), and the `BASE_GROUPS` scan followed by the subgroup
definitions before the group-section end sentinel; since the group
branch's `continue` only continues the inner `for`, after a match the
stale `line` is appended once more and the head of the remaining lines
is skipped (`rem.tail`). -/
def stepU (builds refs sources : List String) (groups : List (String × String))
    (bf : String → List (String × String)) (sgs : List Subgroup)
    (sgFiles : String → List (String × String)) (line : String) (rest : List String) :
    Option (List String × List String) :=
  if strContains line endBuildMark then some (builds ++ [line], rest)
  else if strContains line endRefMark then some (refs ++ [line], rest)
  else if strContains line srcAnchor
      && (match rest with | l1 :: _ => strContains l1 phaseIsa | [] => false) then
    match rest with
    | l1 :: l2 :: l3 :: rest2 =>
      match phaseSplit rest2 with
      | none => none
      | some (a, cl, c, bl, rest4) =>
        some (line :: l1 :: l2 :: l3 :: (a ++ sources ++ cl :: (c ++ [bl])), rest4)
    | _ => none
  else
    match groupScanAux bf sgs groups line rest false with
    | none => none
    | some (emitted, rem, matched) =>
      let defs := if strContains line endGroupMark
        then sgs.flatMap (subgroupDefLines sgFiles) else []
      if matched then some (emitted ++ defs ++ [line], rem.tail)
      else some (defs ++ [line], rest)

theorem stepU_next_length (builds refs sources : List String)
    (groups : List (String × String)) (bf : String → List (String × String))
    (sgs : List Subgroup) (sgFiles : String → List (String × String))
    (line : String) (rest e next : List String)
    (h : stepU builds refs sources groups bf sgs sgFiles line rest = some (e, next)) :
    next.length ≤ rest.length := by
  unfold stepU at h
  split at h
  · simp only [Option.some.injEq, Prod.mk.injEq] at h
    rw [← h.2]
  · split at h
    · simp only [Option.some.injEq, Prod.mk.injEq] at h
      rw [← h.2]
    · split at h
      · split at h
        · rename_i l1 l2 l3 rest2
          split at h
          · exact absurd h (by simp)
          · rename_i a cl c bl rest4 hps
            simp only [Option.some.injEq, Prod.mk.injEq] at h
            have hlen := phaseSplit_length hps
            rw [← h.2]
            simp only [List.length_cons]
            omega
        · exact absurd h (by simp)
      · split at h
        · exact absurd h (by simp)
        · rename_i ee rr mm hgs
          have hrem := groupScanAux_rem_length bf sgs groups line rest false _ _ _ hgs
          cases mm with
          | true =>
            simp only [if_true, Option.some.injEq, Prod.mk.injEq] at h
            obtain ⟨h1, h2⟩ := h
            subst h2
            simp only [List.length_tail]
            omega
          | false =>
            simp only [Bool.false_eq_true, if_false, Option.some.injEq, Prod.mk.injEq] at h
            obtain ⟨h1, h2⟩ := h
            subst h2
            exact Nat.le_refl _

/-- The main while-loop of `ULTIMATE_FIX.py` (lines 130–229): iterate
`stepU` until the lines are exhausted. -/
def rewriteU (builds refs sources : List String) (groups : List (String × String))
    (bf : String → List (String × String)) (sgs : List Subgroup)
    (sgFiles : String → List (String × String)) : List String → Option (List String)
  | [] => some []
  | line :: rest =>
    match _hs : stepU builds refs sources groups bf sgs sgFiles line rest with
    | none => none
    | some (e, next) =>
      (rewriteU builds refs sources groups bf sgs sgFiles next).map (fun o => e ++ o)
termination_by lines => lines.length
decreasing_by
  have := stepU_next_length _ _ _ _ _ _ _ _ _ _ _ _hs
  simp only [List.length_cons]
  omega

theorem rewriteU_nil (builds refs sources : List String)
    (groups : List (String × String)) (bf : String → List (String × String))
    (sgs : List Subgroup) (sgFiles : String → List (String × String)) :
    rewriteU builds refs sources groups bf sgs sgFiles [] = some [] := by
  rw [rewriteU.eq_def]

theorem rewriteU_cons (builds refs sources : List String)
    (groups : List (String × String)) (bf : String → List (String × String))
    (sgs : List Subgroup) (sgFiles : String → List (String × String))
    (line : String) (rest e next : List String)
    (h : stepU builds refs sources groups bf sgs sgFiles line rest = some (e, next)) :
    rewriteU builds refs sources groups bf sgs sgFiles (line :: rest) =
      (rewriteU builds refs sources groups bf sgs sgFiles next).map (fun o => e ++ o) := by
  rw [rewriteU.eq_def]
  split
  · rename_i hnil
    exact absurd hnil (by simp)
  · rename_i l2 r2 heqc
    injection heqc with hl hr
    subst hl
    subst hr
    split
    · rename_i hnone
      rw [h] at hnone
      exact absurd hnone (by simp)
    · rename_i e2 next2 hsome
      rw [h] at hsome
      simp only [Option.some.injEq, Prod.mk.injEq] at hsome
      rw [hsome.1, hsome.2]

/-- The `ULTIMATE_FIX.py` rewrite on document lines for a given
`file_map`, wiring the generated entries and group data into the loop. -/
def runRewrite (fm : List (String × String)) (lines : List String) : Option (List String) :=
  rewriteU (buildsFor fm) (refsFor fm) (sourcesFor fm) (augGroups fm)
    (baseFilesFor fm) (subgroupsFor fm) (subgroupFilesFor fm) lines

/-- The post-write validation of `ULTIMATE_FIX.py` (line 239). -/
def validateU (result : String) : Bool :=
  strContains result endBuildMark && strContains result endGroupMark

end UltimateFix

/-! ### `add-files-to-xcode.py` -/

namespace AddFiles

def beginBuildMark : String := "/* Begin PBXBuildFile section */"
def beginRefMark : String := "/* Begin PBXFileReference section */"
def beginSourcesMark : String := "/* Begin PBXSourcesBuildPhase section */"
def endSourcesMark : String := "/* End PBXSourcesBuildPhase section */"

/-- The hard-coded "files already in project" set (lines 27–35). -/
def existing_files : List String :=
  ["ZairyuMateApp.swift", "Constants.swift", "Extensions.swift",
   "ColorTheme.swift", "Typography.swift", "Spacing.swift", "Assets.xcassets"]

/-- One `files_to_add` record (lines 50–55 / 65–70). -/
structure FileSpec where
  name : String
  path : String
  parent : String
  ftype : String
deriving DecidableEq

/-- The scan filter of lines 42–58: a discovered `(filename, parent)`
pair is kept iff its *name* is not in the hard-coded `existing_files`
set; kept Swift files get type `sourcecode.swift` and `path = filename`. -/
def selectFiles (found : List (String × String)) : List FileSpec :=
  found.filterMap (fun fp =>
    if existing_files.contains fp.1 then none
    else some ⟨fp.1, fp.1, fp.2, "sourcecode.swift"⟩)

def refLineA (fid : String) (f : FileSpec) : String :=
  "\t\t" ++ fid ++ " /* " ++ f.name ++ " */ = \x7bisa = PBXFileReference; lastKnownFileType = "
    ++ f.ftype ++ "; path = " ++ f.path ++ "; sourceTree = \"<group>\"; \x7d;"

def buildLineA (bid fid name : String) : String :=
  "\t\t" ++ bid ++ " /* " ++ name ++ " in Sources */ = \x7bisa = PBXBuildFile; fileRef = "
    ++ fid ++ " /* " ++ name ++ " */; \x7d;"

/-- The generated lists of lines 73–103.  `uuids` models the stream of
`generate_uuid()` draws (the script's allocator is `random.choices` with
no look at the document); each file consumes two draws, `file_uuid` then
`build_uuid`.  A `PBXBuildFile` line and a `group_children['SOURCES']`
entry are produced only when `file_type == 'sourcecode.swift'`. -/
structure Generated where
  file_refs : List String
  build_files : List String
  sources_track : List (String × String)
deriving DecidableEq

def generate (uuids : Nat → String) : List FileSpec → Nat → Generated
  | [], _ => ⟨[], [], []⟩
  | f :: fs, k =>
    let file_uuid := uuids k
    let build_uuid := uuids (k + 1)
    let rest := generate uuids fs (k + 2)
    ⟨refLineA file_uuid f :: rest.file_refs,
     (if f.ftype == "sourcecode.swift" then [buildLineA build_uuid file_uuid f.name] else [])
       ++ rest.build_files,
     (if f.ftype == "sourcecode.swift" then [(build_uuid, f.name)] else [])
       ++ rest.sources_track⟩

/-- `group_children[parent]` (lines 100–103): the `(file_uuid, name)`
pairs tracked for a nonempty parent path. -/
def childPairsFor (uuids : Nat → String) : List FileSpec → Nat → String → List (String × String)
  | [], _, _ => []
  | f :: fs, k, p =>
    (if f.parent == p && f.parent != "" then [(uuids k, f.name)] else [])
      ++ childPairsFor uuids fs (k + 2) p

/-- The four explicit group branches of lines 158–194. -/
def groupSpecs : List (String × String) :=
  [("A10000033 /* Models */", "Core/Models"),
   ("A10000034 /* Services */", "Core/Services"),
   ("A10000035 /* Storage */", "Core/Storage"),
   ("A10000036 /* Utilities */", "Core/Utilities")]

def childLineA (cid cname : String) : String :=
  "\t\t\t\t" ++ cid ++ " /* " ++ cname ++ " */,"

/-- One pass over the group branches for the current `line` (each branch
appends `line`, and only a branch whose lookahead also matches issues
`continue`); returns the lines emitted and whether some branch continued. -/
def groupBranches (children : String → List (String × String)) (line : String)
    (nextLine : Option String) : List (String × String) → List String × Bool
  | [] => ([], false)
  | (marker, gpath) :: gsRest =>
    if strContains line marker && strContains line "isa = PBXGroup" then
      match nextLine with
      | some nl =>
        if strContains nl "children = (" then
          (line :: nl :: (children gpath).map (fun un => childLineA un.1 un.2), true)
        else
          let r := groupBranches children line nextLine gsRest
          (line :: r.1, r.2)
      | none =>
        let r := groupBranches children line nextLine gsRest
        (line :: r.1, r.2)
    else
      groupBranches children line nextLine gsRest

/-- The `for i, line in enumerate(lines)` loop of lines 119–197.  The
flag `inS` is `in_sources_phase`; the enumerate-`for` always advances by
exactly one line (the body's `i += 1` statements do not affect the
iterator). New build-file / file-reference lines are emitted right after
the section *Begin* markers, and new sources entries right after
`files = (`, i.e. before all pre-existing entries. -/
def addLoop (bf fr : List String) (srcs : List (String × String))
    (children : String → List (String × String)) :
    Bool → List String → List String
  | _, [] => []
  | inS, line :: rest =>
    if strContains line beginBuildMark then
      line :: (bf ++ addLoop bf fr srcs children inS rest)
    else if strContains line beginRefMark then
      line :: (fr ++ addLoop bf fr srcs children inS rest)
    else
      let inS1 := if strContains line beginSourcesMark then true else inS
      let inS2 := if strContains line endSourcesMark then false else inS1
      if inS2 && strContains line "files = (" then
        line :: (srcs.map (fun bn => "\t\t\t\t" ++ bn.1 ++ " /* " ++ bn.2 ++ " in Sources */,")
          ++ addLoop bf fr srcs children inS2 rest)
      else
        let gb := groupBranches children line rest.head? groupSpecs
        if gb.2 then gb.1 ++ addLoop bf fr srcs children inS2 rest
        else gb.1 ++ line :: addLoop bf fr srcs children inS2 rest

/-- The whole `add-files-to-xcode.py` rewrite: select files against the
hard-coded set, generate entries, and rebuild the document from
`original_content.split('\n')`, joined back with `'\n'`. -/
def patchDoc (uuids : Nat → String) (found : List (String × String)) (content : String) : String :=
  let files := selectFiles found
  let g := generate uuids files 0
  joinNL (addLoop g.build_files g.file_refs g.sources_track
    (childPairsFor uuids files 0) false (pySplitChar '\n' content))

end AddFiles

/-! ### `proper_fix.py` -/

namespace ProperFix

def srcAnchorP : String := "A10000042 /* Sources */ = \x7b"

/-- First index in `[start, stop)` whose line contains `tok`. -/
def findFrom (lines : List String) (tok : String) (start stop : Nat) : Option Nat :=
  ((List.range' start (stop - start)).filter
    (fun i => strContains (lines.getD i "") tok)).head?

/-- The insertion-point scan of lines 77–92: last occurrence wins for
each marker; the Sources point is found by bounded lookahead (20 lines
for `files = (`, then 50 for `);`). -/
def scanPoints (lines : List String) : Option Nat × Option Nat × Option Nat :=
  (List.range lines.length).foldl
    (fun acc i =>
      let line := lines.getD i ""
      let b' := if strContains line ManualFix.endBuildMark then some i else acc.1
      let f' := if strContains line ManualFix.endRefMark then some i else acc.2.1
      let s' :=
        if strContains line srcAnchorP then
          match findFrom lines "files = (" i (min (i + 20) lines.length) with
          | none => acc.2.2
          | some j =>
            match findFrom lines ");" (j + 1) (min (j + 50) lines.length) with
            | none => acc.2.2
            | some k => some k
        else acc.2.2
      (b', f', s'))
    (none, none, none)

/-- Python truthiness of an optional line index, as used by
`if not all([buildfile_end_idx, fileref_end_idx, sources_insert_idx])`:
both `None` and index `0` are falsy. -/
def truthy : Option Nat → Bool
  | none => false
  | some 0 => false
  | some (_ + 1) => true

/-- The index-driven insertion loop of lines 100–115. -/
def insertLoop (bi fi si : Nat) (bf fr se : List String) (lines : List String) : List String :=
  lines.enum.flatMap (fun il =>
    (if il.1 == bi then bf else []) ++ (if il.1 == fi then fr else []) ++
    (if il.1 == si then se else []) ++ [il.2])

structure PRun where
  writes : List String
  aborted : Bool
deriving DecidableEq

/-- The `proper_fix.py` pipeline after entry generation (lines 69–129):
find the three insertion points, abort (`exit(1)`) before any write if
`all([...])` fails, otherwise write the patched text, validate the two
end sentinels, and restore the original text on failure.  `bf`, `fr`,
`se` are the rendered entry lists from lines 43–67. -/
def run (original : String) (bf fr se : List String) : PRun :=
  let lines := pySplitChar '\n' original
  let pts := scanPoints lines
  if truthy pts.1 && truthy pts.2.1 && truthy pts.2.2 then
    let out := joinNL (insertLoop ((pts.1).getD 0) ((pts.2.1).getD 0) ((pts.2.2).getD 0)
      bf fr se lines)
    if strContains out ManualFix.endBuildMark && strContains out ManualFix.endRefMark
    then ⟨[out], false⟩
    else ⟨[out, original], true⟩
  else ⟨[], true⟩

def finalDisk (original : String) (r : PRun) : String :=
  r.writes.foldl (fun _ w => w) original

end ProperFix

/-! ### General lemmas about the embedding -/

theorem listContains_iff (pat hay : List Char) :
    listContains pat hay = true ↔ pat <:+: hay := by
  induction hay with
  | nil => simp [listContains, List.isEmpty_iff, List.infix_nil]
  | cons c t ih =>
    simp [listContains, ih, List.infix_cons_iff, List.isPrefixOf_iff_prefix]

theorem strContains_iff (hay pat : String) :
    strContains hay pat = true ↔ pat.data <:+: hay.data := by
  simp [strContains, listContains_iff]

theorem strContains_of_line (big l pat : String)
    (h1 : l.data <:+: big.data) (h2 : strContains l pat = true) :
    strContains big pat = true := by
  rw [strContains_iff] at h2 ⊢
  exact h2.trans h1

theorem joinNL_data_of_mem (l : String) (xs : List String) (hmem : l ∈ xs) :
    l.data <:+: (joinNL xs).data := by
  induction xs with
  | nil => cases hmem
  | cons x t ih =>
    cases t with
    | nil =>
      simp at hmem
      subst hmem
      exact List.infix_refl _
    | cons y t2 =>
      rcases List.mem_cons.mp hmem with h | h
      · subst h
        show l.data <:+: ((l ++ "\n") ++ joinNL (y :: t2)).data
        rw [String.data_append, String.data_append]
        exact ((List.prefix_append _ _).trans (List.prefix_append _ _)).isInfix
      · have := ih h
        show l.data <:+: ((x ++ "\n") ++ joinNL (y :: t2)).data
        rw [String.data_append]
        exact this.trans (List.suffix_append _ _).isInfix

namespace ManualFix

theorem rewriteAux_sublist (b r s : List String) :
    ∀ (lines out : List String), rewriteAux b r s lines = some out → lines.Sublist out := by
  intro lines
  induction lines using rewriteAux.induct b r s with
  | case1 =>
    intro out h
    rw [rewriteAux.eq_def] at h
    simp only [Option.some.injEq] at h
    simp [← h]
  | case2 l ls hc ih =>
    intro out h
    rw [rewriteAux.eq_def] at h
    simp [hc] at h
    obtain ⟨o, ho, hout⟩ := h
    subst hout
    exact ((ih o ho).cons₂ l).trans (List.sublist_append_right _ _)
  | case3 l ls hc1 hc2 ih =>
    intro out h
    rw [rewriteAux.eq_def] at h
    simp [hc1, hc2] at h
    obtain ⟨o, ho, hout⟩ := h
    subst hout
    exact ((ih o ho).cons₂ l).trans (List.sublist_append_right _ _)
  | case4 l hc1 hc2 hc3 =>
    intro out h
    rw [rewriteAux.eq_def] at h
    simp [hc1, hc2, hc3] at h
  | case5 l hc1 hc2 hc3 l1 hl1 l2 l3 rest2 hp =>
    intro out h
    rw [rewriteAux.eq_def] at h
    simp [hc1, hc2, hc3, hl1] at h
    split at h
    · simp at h
    · rename_i a cl c bl rest4 hps
      rw [hp] at hps
      simp at hps
  | case6 l hc1 hc2 hc3 l1 hl1 l2 l3 rest2 a cl c bl rest4 hp _ ih =>
    intro out h
    rw [rewriteAux.eq_def] at h
    simp [hc1, hc2, hc3, hl1] at h
    split at h
    · rename_i hps
      rw [hp] at hps
      simp at hps
    · rename_i a2 cl2 c2 bl2 rest42 hps
      rw [hp] at hps
      simp only [Option.some.injEq, Prod.mk.injEq] at hps
      obtain ⟨h1, h2, h3, h4, h5⟩ := hps
      subst h1
      subst h2
      subst h3
      subst h4
      subst h5
      simp only [Option.map_eq_some'] at h
      obtain ⟨o, ho, hout⟩ := h
      subst hout
      have hr2 := phaseSplit_append hp
      have hsub : rest4.Sublist o := ih o ho
      have h5 : (a ++ cl :: (c ++ bl :: rest4)).Sublist (a ++ (s ++ cl :: (c ++ bl :: o))) :=
        ((((hsub.cons₂ bl).append_left c).cons₂ cl).trans
          (List.sublist_append_right _ _)).append_left a
      have h6 : rest2.Sublist (a ++ (s ++ cl :: (c ++ bl :: o))) := hr2 ▸ h5
      have h7 := (((h6.cons₂ l3).cons₂ l2).cons₂ l1).cons₂ l
      simpa using h7
  | case7 l hc1 hc2 hc3 l1 rest1 hl1 =>
    rename_i hr0 himp
    intro out h
    rcases rest1 with _ | ⟨x, _ | ⟨y, z⟩⟩
    · rw [rewriteAux.eq_def] at h
      simp [hc1, hc2, hc3, hl1] at h
    · rw [rewriteAux.eq_def] at h
      simp [hc1, hc2, hc3, hl1] at h
    · exact (himp x y z rfl rfl HEq.rfl).elim
  | case8 l hc1 hc2 hc3 l1 rest1 hne ih =>
    intro out h
    rw [rewriteAux.eq_def] at h
    simp [hc1, hc2, hc3, hne] at h
    obtain ⟨o, ho, hout⟩ := h
    subst hout
    exact (ih o ho).cons₂ l
  | case9 l ls hc1 hc2 hc3 ih =>
    intro out h
    rw [rewriteAux.eq_def] at h
    simp [hc1, hc2, hc3] at h
    obtain ⟨o, ho, hout⟩ := h
    subst hout
    exact (ih o ho).cons₂ l

end ManualFix


namespace ManualFix

theorem rewriteAux_empty_id :
    ∀ (lines out : List String), rewriteAux [] [] [] lines = some out → out = lines := by
  intro lines
  induction lines using rewriteAux.induct [] [] [] with
  | case1 =>
    intro out h
    rw [rewriteAux.eq_def] at h
    simp only [Option.some.injEq] at h
    exact h.symm
  | case2 l ls hc ih =>
    intro out h
    rw [rewriteAux.eq_def] at h
    simp [hc] at h
    obtain ⟨o, ho, hout⟩ := h
    subst hout
    simp [ih o ho]
  | case3 l ls hc1 hc2 ih =>
    intro out h
    rw [rewriteAux.eq_def] at h
    simp [hc1, hc2] at h
    obtain ⟨o, ho, hout⟩ := h
    subst hout
    simp [ih o ho]
  | case4 l hc1 hc2 hc3 =>
    intro out h
    rw [rewriteAux.eq_def] at h
    simp [hc1, hc2, hc3] at h
  | case5 l hc1 hc2 hc3 l1 hl1 l2 l3 rest2 hp =>
    intro out h
    rw [rewriteAux.eq_def] at h
    simp [hc1, hc2, hc3, hl1] at h
    split at h
    · simp at h
    · rename_i a cl c bl rest4 hps
      rw [hp] at hps
      simp at hps
  | case6 l hc1 hc2 hc3 l1 hl1 l2 l3 rest2 a cl c bl rest4 hp _ ih =>
    intro out h
    rw [rewriteAux.eq_def] at h
    simp [hc1, hc2, hc3, hl1] at h
    split at h
    · rename_i hps
      rw [hp] at hps
      simp at hps
    · rename_i a2 cl2 c2 bl2 rest42 hps
      rw [hp] at hps
      simp only [Option.some.injEq, Prod.mk.injEq] at hps
      obtain ⟨h1, h2, h3, h4, h5⟩ := hps
      subst h1
      subst h2
      subst h3
      subst h4
      subst h5
      simp only [Option.map_eq_some'] at h
      obtain ⟨o, ho, hout⟩ := h
      subst hout
      rw [phaseSplit_append hp]
      simp [ih o ho]
  | case7 l hc1 hc2 hc3 l1 rest1 hl1 =>
    rename_i hr0 himp
    intro out h
    rcases rest1 with _ | ⟨x, _ | ⟨y, z⟩⟩
    · rw [rewriteAux.eq_def] at h
      simp [hc1, hc2, hc3, hl1] at h
    · rw [rewriteAux.eq_def] at h
      simp [hc1, hc2, hc3, hl1] at h
    · exact (himp x y z rfl rfl HEq.rfl).elim
  | case8 l hc1 hc2 hc3 l1 rest1 hne ih =>
    intro out h
    rw [rewriteAux.eq_def] at h
    simp [hc1, hc2, hc3, hne] at h
    obtain ⟨o, ho, hout⟩ := h
    subst hout
    simp [ih o ho]
  | case9 l ls hc1 hc2 hc3 ih =>
    intro out h
    rw [rewriteAux.eq_def] at h
    simp [hc1, hc2, hc3] at h
    obtain ⟨o, ho, hout⟩ := h
    subst hout
    simp [ih o ho]

end ManualFix

namespace UltimateFix

theorem mkSubgroups_map_key : ∀ (ps : List String) (seed : Nat),
    (mkSubgroups ps seed).map Subgroup.key = ps := by
  intro ps
  induction ps with
  | nil => intro seed; simp [mkSubgroups]
  | cons p t ih => intro seed; simp [mkSubgroups, ih]

theorem mkSubgroups_fields : ∀ (ps : List String) (seed : Nat),
    ∀ g ∈ mkSubgroups ps seed,
      g.name = (pySplitChar '/' g.key).getLastD "" ∧
      g.pathSeg = (pySplitChar '/' g.key).getLastD "" ∧
      g.parent = joinSlash (pySplitChar '/' g.key).dropLast := by
  intro ps
  induction ps with
  | nil => intro seed g hg; simp [mkSubgroups] at hg
  | cons p t ih =>
    intro seed g hg
    simp only [mkSubgroups, List.mem_cons] at hg
    rcases hg with rfl | hg
    · exact ⟨rfl, rfl, rfl⟩
    · exact ih (seed + 1) g hg

theorem insertSorted_perm (x : String) (l : List String) :
    (insertSorted x l).Perm (x :: l) := by
  induction l with
  | nil => simp [insertSorted]
  | cons y t ih =>
    by_cases h : decide (x ≤ y) = true
    · rw [insertSorted, if_pos h]
    · rw [insertSorted, if_neg h]
      exact (ih.cons y).trans (List.Perm.swap x y t)

theorem sortStrings_perm (xs : List String) : (sortStrings xs).Perm xs := by
  induction xs with
  | nil => simp [sortStrings]
  | cons x t ih => exact (insertSorted_perm x (sortStrings t)).trans (ih.cons x)

theorem newGroupsNeeded_nodup (fm : List (String × String)) :
    (newGroupsNeeded fm).Nodup := by
  unfold newGroupsNeeded
  exact ((sortStrings_perm _).nodup_iff).mpr ((List.nodup_dedup _).filter _)

theorem mem_newGroupsNeeded (fm : List (String × String)) (p : String) :
    p ∈ newGroupsNeeded fm ↔ p ∈ fm.map Prod.snd ∧ baseKeys.contains p = false := by
  unfold newGroupsNeeded
  rw [(sortStrings_perm _).mem_iff]
  simp [List.mem_filter, List.mem_dedup]

end UltimateFix

theorem countKey_le_one {α β : Type} [DecidableEq β] (f : α → β) :
    ∀ (l : List α), (l.map f).Nodup → ∀ p, (l.filter (fun a => f a == p)).length ≤ 1 := by
  intro l
  induction l with
  | nil => simp
  | cons a t ih =>
    intro hnd p
    rw [List.map_cons, List.nodup_cons] at hnd
    obtain ⟨hna, hnd⟩ := hnd
    by_cases hfa : f a = p
    · subst hfa
      have hft : t.filter (fun x => f x == f a) = [] := by
        rw [List.filter_eq_nil_iff]
        intro x hx hfx
        exact hna (List.mem_map.mpr ⟨x, hx, (by simpa using hfx)⟩)
      simp [List.filter_cons, hft]
    · have : (f a == p) = false := by simpa using hfa
      simp only [List.filter_cons, this]
      simpa using ih hnd p

/-! ### Claim theorems -/

set_option maxRecDepth 10000
set_option maxHeartbeats 1600000

/-- Claim C1: the claim says every allocator-returned identifier is distinct
from every ID already present in the loaded manifest, the allocator
consulting the document's IDs.  The code's allocator `gen_id` is a pure
function of a counter seed: the first file ID of any `ULTIMATE_FIX.py` run
is `MD5("90000")[:24] = E98FF526AD76393F7DFB9717` regardless of the
document, so a manifest already containing that ID (such as the file
reference line below) collides. -/
theorem C1_allocator_ignores_document :
    (UltimateFix.filePlans [("NewView.swift", "Core")]).map UltimateFix.FilePlan.fid
      = [gen_id 90000] ∧
    gen_id 90000 = "E98FF526AD76393F7DFB9717" ∧
    strContains
      "\t\tE98FF526AD76393F7DFB9717 /* Old.swift */ = \x7bisa = PBXFileReference; lastKnownFileType = sourcecode.swift; path = Old.swift; sourceTree = \"<group>\"; \x7d;"
      "E98FF526AD76393F7DFB9717" = true :=
  ⟨rfl, by decide, by decide⟩

/-- Claim C3: evaluation of the `ULTIMATE_FIX.py` rewrite on a document
with a `Core` group block followed by another line.  The group header line
is emitted twice and the line after the group's closing brace
(`NEXTLINE`) is dropped, because the group branch's `continue` continues
the inner `for` over `BASE_GROUPS` instead of the outer `while`; so not
every non-insertion line is reproduced. -/
theorem C3_group_scan_corrupts :
    UltimateFix.runRewrite []
      ["\t\tA10000024 /* Core */ = \x7b", "\t\t\tisa = PBXGroup;", "\t\t\tchildren = (",
       "\t\t\t);", "\t\t\x7d;", "NEXTLINE",
       "/* End PBXBuildFile section */", "/* End PBXGroup section */"] =
    some ["\t\tA10000024 /* Core */ = \x7b", "\t\t\tisa = PBXGroup;", "\t\t\tchildren = (",
       "\t\t\t);", "\t\t\x7d;", "\t\tA10000024 /* Core */ = \x7b",
       "/* End PBXBuildFile section */", "/* End PBXGroup section */"] ∧
    "NEXTLINE" ∉
      ["\t\tA10000024 /* Core */ = \x7b", "\t\t\tisa = PBXGroup;", "\t\t\tchildren = (",
       "\t\t\t);", "\t\t\x7d;", "\t\tA10000024 /* Core */ = \x7b",
       "/* End PBXBuildFile section */", "/* End PBXGroup section */"] := by
  constructor
  · unfold UltimateFix.runRewrite
    have s1 : UltimateFix.stepU (UltimateFix.buildsFor []) (UltimateFix.refsFor [])
        (UltimateFix.sourcesFor []) (UltimateFix.augGroups []) (UltimateFix.baseFilesFor [])
        (UltimateFix.subgroupsFor []) (UltimateFix.subgroupFilesFor [])
        "\t\tA10000024 /* Core */ = \x7b"
        ["\t\t\tisa = PBXGroup;", "\t\t\tchildren = (", "\t\t\t);", "\t\t\x7d;", "NEXTLINE",
         "/* End PBXBuildFile section */", "/* End PBXGroup section */"] =
        some (["\t\tA10000024 /* Core */ = \x7b", "\t\t\tisa = PBXGroup;", "\t\t\tchildren = (",
               "\t\t\t);", "\t\t\x7d;", "\t\tA10000024 /* Core */ = \x7b"],
              ["/* End PBXBuildFile section */", "/* End PBXGroup section */"]) := by decide
    have s2 : UltimateFix.stepU (UltimateFix.buildsFor []) (UltimateFix.refsFor [])
        (UltimateFix.sourcesFor []) (UltimateFix.augGroups []) (UltimateFix.baseFilesFor [])
        (UltimateFix.subgroupsFor []) (UltimateFix.subgroupFilesFor [])
        "/* End PBXBuildFile section */" ["/* End PBXGroup section */"] =
        some (["/* End PBXBuildFile section */"], ["/* End PBXGroup section */"]) := by decide
    have s3 : UltimateFix.stepU (UltimateFix.buildsFor []) (UltimateFix.refsFor [])
        (UltimateFix.sourcesFor []) (UltimateFix.augGroups []) (UltimateFix.baseFilesFor [])
        (UltimateFix.subgroupsFor []) (UltimateFix.subgroupFilesFor [])
        "/* End PBXGroup section */" [] =
        some (["/* End PBXGroup section */"], []) := by decide
    rw [UltimateFix.rewriteU_cons _ _ _ _ _ _ _ _ _ _ _ s1,
        UltimateFix.rewriteU_cons _ _ _ _ _ _ _ _ _ _ _ s2,
        UltimateFix.rewriteU_cons _ _ _ _ _ _ _ _ _ _ _ s3,
        UltimateFix.rewriteU_nil]
    rfl
  · decide

/-- Claim C2 counterexample: the claim says a run on a document missing a
required anchor aborts without writing and leaves the manifest
byte-identical.  For `manual_fix.py`, on a document that carries the two
validated end sentinels but no Sources-phase anchor, the run completes
(`ok`), writes a changed manifest, and the phase-membership line for the
new file is absent from it — a persisted partial patch. -/
theorem C2_counterexample :
    strContains "/* End PBXBuildFile section */\n/* End PBXFileReference section */\n"
      ManualFix.srcAnchor = false ∧
    (ManualFix.run "/* End PBXBuildFile section */\n/* End PBXFileReference section */\n"
      ["Foo.swift"]).outcome = ManualFix.Outcome.ok ∧
    ManualFix.finalDisk "/* End PBXBuildFile section */\n/* End PBXFileReference section */\n"
      (ManualFix.run "/* End PBXBuildFile section */\n/* End PBXFileReference section */\n"
        ["Foo.swift"]) ≠
      "/* End PBXBuildFile section */\n/* End PBXFileReference section */\n" ∧
    (ManualFix.genEntries ["Foo.swift"] 60000).sources =
      ["\t\t\t\t8ECDBBF4CA2A3715337C02CB /* Foo.swift in Sources */,"] ∧
    strContains
      (ManualFix.finalDisk "/* End PBXBuildFile section */\n/* End PBXFileReference section */\n"
        (ManualFix.run "/* End PBXBuildFile section */\n/* End PBXFileReference section */\n"
          ["Foo.swift"]))
      "\t\t\t\t8ECDBBF4CA2A3715337C02CB /* Foo.swift in Sources */," = false := by
  have hg : ManualFix.genEntries ["Foo.swift"] 60000 =
      ⟨["\t\t2B4226DD7ED6EB2D419B881F /* Foo.swift */ = \x7bisa = PBXFileReference; lastKnownFileType = sourcecode.swift; path = Foo.swift; sourceTree = \"<group>\"; \x7d;"],
       ["\t\t8ECDBBF4CA2A3715337C02CB /* Foo.swift in Sources */ = \x7bisa = PBXBuildFile; fileRef = 2B4226DD7ED6EB2D419B881F /* Foo.swift */; \x7d;"],
       ["\t\t\t\t8ECDBBF4CA2A3715337C02CB /* Foo.swift in Sources */,"]⟩ := by decide
  have e0 : ManualFix.rewriteAux
      ["\t\t8ECDBBF4CA2A3715337C02CB /* Foo.swift in Sources */ = \x7bisa = PBXBuildFile; fileRef = 2B4226DD7ED6EB2D419B881F /* Foo.swift */; \x7d;"]
      ["\t\t2B4226DD7ED6EB2D419B881F /* Foo.swift */ = \x7bisa = PBXFileReference; lastKnownFileType = sourcecode.swift; path = Foo.swift; sourceTree = \"<group>\"; \x7d;"]
      ["\t\t\t\t8ECDBBF4CA2A3715337C02CB /* Foo.swift in Sources */,"]
      [] = some [] := by
    rw [ManualFix.rewriteAux.eq_def]
  have e1 : ManualFix.rewriteAux
      ["\t\t8ECDBBF4CA2A3715337C02CB /* Foo.swift in Sources */ = \x7bisa = PBXBuildFile; fileRef = 2B4226DD7ED6EB2D419B881F /* Foo.swift */; \x7d;"]
      ["\t\t2B4226DD7ED6EB2D419B881F /* Foo.swift */ = \x7bisa = PBXFileReference; lastKnownFileType = sourcecode.swift; path = Foo.swift; sourceTree = \"<group>\"; \x7d;"]
      ["\t\t\t\t8ECDBBF4CA2A3715337C02CB /* Foo.swift in Sources */,"]
      ["/* End PBXFileReference section */"] =
      some ["\t\t2B4226DD7ED6EB2D419B881F /* Foo.swift */ = \x7bisa = PBXFileReference; lastKnownFileType = sourcecode.swift; path = Foo.swift; sourceTree = \"<group>\"; \x7d;",
            "/* End PBXFileReference section */"] := by
    rw [ManualFix.rewriteAux.eq_def]
    show (ManualFix.rewriteAux _ _ _ []).map
      (fun o => ["\t\t2B4226DD7ED6EB2D419B881F /* Foo.swift */ = \x7bisa = PBXFileReference; lastKnownFileType = sourcecode.swift; path = Foo.swift; sourceTree = \"<group>\"; \x7d;"]
        ++ "/* End PBXFileReference section */" :: o) = _
    rw [e0]
    rfl
  have e2 : ManualFix.rewriteAux
      ["\t\t8ECDBBF4CA2A3715337C02CB /* Foo.swift in Sources */ = \x7bisa = PBXBuildFile; fileRef = 2B4226DD7ED6EB2D419B881F /* Foo.swift */; \x7d;"]
      ["\t\t2B4226DD7ED6EB2D419B881F /* Foo.swift */ = \x7bisa = PBXFileReference; lastKnownFileType = sourcecode.swift; path = Foo.swift; sourceTree = \"<group>\"; \x7d;"]
      ["\t\t\t\t8ECDBBF4CA2A3715337C02CB /* Foo.swift in Sources */,"]
      ["/* End PBXBuildFile section */", "/* End PBXFileReference section */"] =
      some ["\t\t8ECDBBF4CA2A3715337C02CB /* Foo.swift in Sources */ = \x7bisa = PBXBuildFile; fileRef = 2B4226DD7ED6EB2D419B881F /* Foo.swift */; \x7d;",
            "/* End PBXBuildFile section */",
            "\t\t2B4226DD7ED6EB2D419B881F /* Foo.swift */ = \x7bisa = PBXFileReference; lastKnownFileType = sourcecode.swift; path = Foo.swift; sourceTree = \"<group>\"; \x7d;",
            "/* End PBXFileReference section */"] := by
    rw [ManualFix.rewriteAux.eq_def]
    show (ManualFix.rewriteAux _ _ _ ["/* End PBXFileReference section */"]).map
      (fun o => ["\t\t8ECDBBF4CA2A3715337C02CB /* Foo.swift in Sources */ = \x7bisa = PBXBuildFile; fileRef = 2B4226DD7ED6EB2D419B881F /* Foo.swift */; \x7d;"]
        ++ "/* End PBXBuildFile section */" :: o) = _
    rw [e1]
    rfl
  have hrun : ManualFix.run
      "/* End PBXBuildFile section */\n/* End PBXFileReference section */\n" ["Foo.swift"] =
      ⟨["\t\t8ECDBBF4CA2A3715337C02CB /* Foo.swift in Sources */ = \x7bisa = PBXBuildFile; fileRef = 2B4226DD7ED6EB2D419B881F /* Foo.swift */; \x7d;\n/* End PBXBuildFile section */\n\t\t2B4226DD7ED6EB2D419B881F /* Foo.swift */ = \x7bisa = PBXFileReference; lastKnownFileType = sourcecode.swift; path = Foo.swift; sourceTree = \"<group>\"; \x7d;\n/* End PBXFileReference section */\n"],
       some "/* End PBXBuildFile section */\n/* End PBXFileReference section */\n",
       ManualFix.Outcome.ok⟩ := by
    unfold ManualFix.run
    dsimp only
    rw [hg]
    dsimp only
    rw [show pySplitlines "/* End PBXBuildFile section */\n/* End PBXFileReference section */\n"
        = ["/* End PBXBuildFile section */", "/* End PBXFileReference section */"] from by decide]
    rw [e2]
    decide
  refine ⟨by decide, ?_, ?_, ?_, ?_⟩
  · rw [hrun]
  · rw [hrun]
    decide
  · rw [hg]
  · rw [hrun]
    decide


/-- Claim C2 (amended): for `proper_fix.py` the abort property holds: when
the scan for the three insertion points fails the truthiness check (an
anchor absent, or found at index 0), the run exits before any write, and
the on-disk manifest is byte-identical to the input. -/
theorem C2_amended_abort (original : String) (bf fr se : List String)
    (h : (ProperFix.truthy (ProperFix.scanPoints (pySplitChar '\n' original)).1 &&
          ProperFix.truthy (ProperFix.scanPoints (pySplitChar '\n' original)).2.1 &&
          ProperFix.truthy (ProperFix.scanPoints (pySplitChar '\n' original)).2.2) = false) :
    (ProperFix.run original bf fr se).writes = [] ∧
    (ProperFix.run original bf fr se).aborted = true ∧
    ProperFix.finalDisk original (ProperFix.run original bf fr se) = original := by
  have hr : ProperFix.run original bf fr se = ⟨[], true⟩ := by
    simp only [ProperFix.run]
    rw [h]
    simp
  refine ⟨by rw [hr], by rw [hr], by rw [hr]; rfl⟩

/-- Witness for `C2_amended_abort` at a concrete anchorless document. -/
theorem C2_amended_abort_witness :
    ((ProperFix.truthy (ProperFix.scanPoints (pySplitChar '\n' "x")).1 &&
      ProperFix.truthy (ProperFix.scanPoints (pySplitChar '\n' "x")).2.1 &&
      ProperFix.truthy (ProperFix.scanPoints (pySplitChar '\n' "x")).2.2) = false) ∧
    ((ProperFix.run "x" [] [] []).writes = [] ∧
     (ProperFix.run "x" [] [] []).aborted = true ∧
     ProperFix.finalDisk "x" (ProperFix.run "x" [] [] []) = "x") :=
  ⟨by decide, C2_amended_abort "x" [] [] [] (by decide)⟩


/-- Claim C4: patching is NOT idempotent with respect to already-registered
files.  `manual_fix.py` derives the set of present files from a hard-coded
list, not from the loaded document: on a manifest that already carries the
exact FileEntry line for `Foo.swift`, a run adding `Foo.swift` completes
(`ok`) and the patched manifest carries that FileEntry line twice. -/
theorem C4_duplicate_file_entry :
    (pySplitlines "\t\t2B4226DD7ED6EB2D419B881F /* Foo.swift */ = \x7bisa = PBXFileReference; lastKnownFileType = sourcecode.swift; path = Foo.swift; sourceTree = \"<group>\"; \x7d;\n/* End PBXBuildFile section */\n/* End PBXFileReference section */\n").count
      "\t\t2B4226DD7ED6EB2D419B881F /* Foo.swift */ = \x7bisa = PBXFileReference; lastKnownFileType = sourcecode.swift; path = Foo.swift; sourceTree = \"<group>\"; \x7d;" = 1 ∧
    (ManualFix.run "\t\t2B4226DD7ED6EB2D419B881F /* Foo.swift */ = \x7bisa = PBXFileReference; lastKnownFileType = sourcecode.swift; path = Foo.swift; sourceTree = \"<group>\"; \x7d;\n/* End PBXBuildFile section */\n/* End PBXFileReference section */\n"
      ["Foo.swift"]).outcome = ManualFix.Outcome.ok ∧
    (pySplitlines (ManualFix.finalDisk "\t\t2B4226DD7ED6EB2D419B881F /* Foo.swift */ = \x7bisa = PBXFileReference; lastKnownFileType = sourcecode.swift; path = Foo.swift; sourceTree = \"<group>\"; \x7d;\n/* End PBXBuildFile section */\n/* End PBXFileReference section */\n"
        (ManualFix.run "\t\t2B4226DD7ED6EB2D419B881F /* Foo.swift */ = \x7bisa = PBXFileReference; lastKnownFileType = sourcecode.swift; path = Foo.swift; sourceTree = \"<group>\"; \x7d;\n/* End PBXBuildFile section */\n/* End PBXFileReference section */\n"
          ["Foo.swift"]))).count
      "\t\t2B4226DD7ED6EB2D419B881F /* Foo.swift */ = \x7bisa = PBXFileReference; lastKnownFileType = sourcecode.swift; path = Foo.swift; sourceTree = \"<group>\"; \x7d;" = 2 := by
  have hg : ManualFix.genEntries ["Foo.swift"] 60000 =
      ⟨["\t\t2B4226DD7ED6EB2D419B881F /* Foo.swift */ = \x7bisa = PBXFileReference; lastKnownFileType = sourcecode.swift; path = Foo.swift; sourceTree = \"<group>\"; \x7d;"],
       ["\t\t8ECDBBF4CA2A3715337C02CB /* Foo.swift in Sources */ = \x7bisa = PBXBuildFile; fileRef = 2B4226DD7ED6EB2D419B881F /* Foo.swift */; \x7d;"],
       ["\t\t\t\t8ECDBBF4CA2A3715337C02CB /* Foo.swift in Sources */,"]⟩ := by decide
  have e0 : ManualFix.rewriteAux
      ["\t\t8ECDBBF4CA2A3715337C02CB /* Foo.swift in Sources */ = \x7bisa = PBXBuildFile; fileRef = 2B4226DD7ED6EB2D419B881F /* Foo.swift */; \x7d;"]
      ["\t\t2B4226DD7ED6EB2D419B881F /* Foo.swift */ = \x7bisa = PBXFileReference; lastKnownFileType = sourcecode.swift; path = Foo.swift; sourceTree = \"<group>\"; \x7d;"]
      ["\t\t\t\t8ECDBBF4CA2A3715337C02CB /* Foo.swift in Sources */,"]
      [] = some [] := by
    rw [ManualFix.rewriteAux.eq_def]
  have e1 : ManualFix.rewriteAux
      ["\t\t8ECDBBF4CA2A3715337C02CB /* Foo.swift in Sources */ = \x7bisa = PBXBuildFile; fileRef = 2B4226DD7ED6EB2D419B881F /* Foo.swift */; \x7d;"]
      ["\t\t2B4226DD7ED6EB2D419B881F /* Foo.swift */ = \x7bisa = PBXFileReference; lastKnownFileType = sourcecode.swift; path = Foo.swift; sourceTree = \"<group>\"; \x7d;"]
      ["\t\t\t\t8ECDBBF4CA2A3715337C02CB /* Foo.swift in Sources */,"]
      ["/* End PBXFileReference section */"] =
      some ["\t\t2B4226DD7ED6EB2D419B881F /* Foo.swift */ = \x7bisa = PBXFileReference; lastKnownFileType = sourcecode.swift; path = Foo.swift; sourceTree = \"<group>\"; \x7d;",
            "/* End PBXFileReference section */"] := by
    rw [ManualFix.rewriteAux.eq_def]
    show (ManualFix.rewriteAux _ _ _ []).map
      (fun o => ["\t\t2B4226DD7ED6EB2D419B881F /* Foo.swift */ = \x7bisa = PBXFileReference; lastKnownFileType = sourcecode.swift; path = Foo.swift; sourceTree = \"<group>\"; \x7d;"]
        ++ "/* End PBXFileReference section */" :: o) = _
    rw [e0]
    rfl
  have e2 : ManualFix.rewriteAux
      ["\t\t8ECDBBF4CA2A3715337C02CB /* Foo.swift in Sources */ = \x7bisa = PBXBuildFile; fileRef = 2B4226DD7ED6EB2D419B881F /* Foo.swift */; \x7d;"]
      ["\t\t2B4226DD7ED6EB2D419B881F /* Foo.swift */ = \x7bisa = PBXFileReference; lastKnownFileType = sourcecode.swift; path = Foo.swift; sourceTree = \"<group>\"; \x7d;"]
      ["\t\t\t\t8ECDBBF4CA2A3715337C02CB /* Foo.swift in Sources */,"]
      ["/* End PBXBuildFile section */", "/* End PBXFileReference section */"] =
      some ["\t\t8ECDBBF4CA2A3715337C02CB /* Foo.swift in Sources */ = \x7bisa = PBXBuildFile; fileRef = 2B4226DD7ED6EB2D419B881F /* Foo.swift */; \x7d;",
            "/* End PBXBuildFile section */",
            "\t\t2B4226DD7ED6EB2D419B881F /* Foo.swift */ = \x7bisa = PBXFileReference; lastKnownFileType = sourcecode.swift; path = Foo.swift; sourceTree = \"<group>\"; \x7d;",
            "/* End PBXFileReference section */"] := by
    rw [ManualFix.rewriteAux.eq_def]
    show (ManualFix.rewriteAux _ _ _ ["/* End PBXFileReference section */"]).map
      (fun o => ["\t\t8ECDBBF4CA2A3715337C02CB /* Foo.swift in Sources */ = \x7bisa = PBXBuildFile; fileRef = 2B4226DD7ED6EB2D419B881F /* Foo.swift */; \x7d;"]
        ++ "/* End PBXBuildFile section */" :: o) = _
    rw [e1]
    rfl
  have e3 : ManualFix.rewriteAux
      ["\t\t8ECDBBF4CA2A3715337C02CB /* Foo.swift in Sources */ = \x7bisa = PBXBuildFile; fileRef = 2B4226DD7ED6EB2D419B881F /* Foo.swift */; \x7d;"]
      ["\t\t2B4226DD7ED6EB2D419B881F /* Foo.swift */ = \x7bisa = PBXFileReference; lastKnownFileType = sourcecode.swift; path = Foo.swift; sourceTree = \"<group>\"; \x7d;"]
      ["\t\t\t\t8ECDBBF4CA2A3715337C02CB /* Foo.swift in Sources */,"]
      ["\t\t2B4226DD7ED6EB2D419B881F /* Foo.swift */ = \x7bisa = PBXFileReference; lastKnownFileType = sourcecode.swift; path = Foo.swift; sourceTree = \"<group>\"; \x7d;", "/* End PBXBuildFile section */", "/* End PBXFileReference section */"] =
      some ["\t\t2B4226DD7ED6EB2D419B881F /* Foo.swift */ = \x7bisa = PBXFileReference; lastKnownFileType = sourcecode.swift; path = Foo.swift; sourceTree = \"<group>\"; \x7d;",
            "\t\t8ECDBBF4CA2A3715337C02CB /* Foo.swift in Sources */ = \x7bisa = PBXBuildFile; fileRef = 2B4226DD7ED6EB2D419B881F /* Foo.swift */; \x7d;",
            "/* End PBXBuildFile section */",
            "\t\t2B4226DD7ED6EB2D419B881F /* Foo.swift */ = \x7bisa = PBXFileReference; lastKnownFileType = sourcecode.swift; path = Foo.swift; sourceTree = \"<group>\"; \x7d;",
            "/* End PBXFileReference section */"] := by
    rw [ManualFix.rewriteAux.eq_def]
    show (ManualFix.rewriteAux _ _ _ ["/* End PBXBuildFile section */", "/* End PBXFileReference section */"]).map
      (fun o => "\t\t2B4226DD7ED6EB2D419B881F /* Foo.swift */ = \x7bisa = PBXFileReference; lastKnownFileType = sourcecode.swift; path = Foo.swift; sourceTree = \"<group>\"; \x7d;" :: o) = _
    rw [e2]
    rfl
  have hrun : ManualFix.run
      "\t\t2B4226DD7ED6EB2D419B881F /* Foo.swift */ = \x7bisa = PBXFileReference; lastKnownFileType = sourcecode.swift; path = Foo.swift; sourceTree = \"<group>\"; \x7d;\n/* End PBXBuildFile section */\n/* End PBXFileReference section */\n" ["Foo.swift"] =
      ⟨["\t\t2B4226DD7ED6EB2D419B881F /* Foo.swift */ = \x7bisa = PBXFileReference; lastKnownFileType = sourcecode.swift; path = Foo.swift; sourceTree = \"<group>\"; \x7d;\n\t\t8ECDBBF4CA2A3715337C02CB /* Foo.swift in Sources */ = \x7bisa = PBXBuildFile; fileRef = 2B4226DD7ED6EB2D419B881F /* Foo.swift */; \x7d;\n/* End PBXBuildFile section */\n\t\t2B4226DD7ED6EB2D419B881F /* Foo.swift */ = \x7bisa = PBXFileReference; lastKnownFileType = sourcecode.swift; path = Foo.swift; sourceTree = \"<group>\"; \x7d;\n/* End PBXFileReference section */\n"],
       some "\t\t2B4226DD7ED6EB2D419B881F /* Foo.swift */ = \x7bisa = PBXFileReference; lastKnownFileType = sourcecode.swift; path = Foo.swift; sourceTree = \"<group>\"; \x7d;\n/* End PBXBuildFile section */\n/* End PBXFileReference section */\n",
       ManualFix.Outcome.ok⟩ := by
    unfold ManualFix.run
    dsimp only
    rw [hg]
    dsimp only
    rw [show pySplitlines "\t\t2B4226DD7ED6EB2D419B881F /* Foo.swift */ = \x7bisa = PBXFileReference; lastKnownFileType = sourcecode.swift; path = Foo.swift; sourceTree = \"<group>\"; \x7d;\n/* End PBXBuildFile section */\n/* End PBXFileReference section */\n"
        = ["\t\t2B4226DD7ED6EB2D419B881F /* Foo.swift */ = \x7bisa = PBXFileReference; lastKnownFileType = sourcecode.swift; path = Foo.swift; sourceTree = \"<group>\"; \x7d;", "/* End PBXBuildFile section */", "/* End PBXFileReference section */"] from by decide]
    rw [e3]
    decide
  refine ⟨by decide, ?_, ?_⟩
  · rw [hrun]
  · rw [hrun]
    decide


/-- Claim C5 counterexample: for a file at the depth-3 group path
`Core/Sub/Deep` of which only `Core` exists as a group, `ULTIMATE_FIX.py`
synthesizes exactly ONE new group (for the full path), not the two the
claim requires, and that group's parent path `Core/Sub` is not a key of
the augmented group table, so it is never linked as a child anywhere. -/
theorem C5_counterexample :
    UltimateFix.baseKeys.contains "Core" = true ∧
    UltimateFix.newGroupsNeeded [("Foo.swift", "Core/Sub/Deep")] = ["Core/Sub/Deep"] ∧
    ¬ (UltimateFix.subgroupsFor [("Foo.swift", "Core/Sub/Deep")]).length = 2 ∧
    (UltimateFix.subgroupsFor [("Foo.swift", "Core/Sub/Deep")]).map
      UltimateFix.Subgroup.parent = ["Core/Sub"] ∧
    ((UltimateFix.augGroups [("Foo.swift", "Core/Sub/Deep")]).map
      Prod.fst).contains "Core/Sub" = false := by
  refine ⟨by decide, by decide, ?_, ?_, ?_⟩
  · rw [show UltimateFix.subgroupsFor [("Foo.swift", "Core/Sub/Deep")]
        = UltimateFix.mkSubgroups ["Core/Sub/Deep"] 80000 from by decide]
    decide
  · rw [show UltimateFix.subgroupsFor [("Foo.swift", "Core/Sub/Deep")]
        = UltimateFix.mkSubgroups ["Core/Sub/Deep"] 80000 from by decide]
    decide
  · decide

/-- Claim C5 (amended): what the run actually creates: one subgroup per
DISTINCT group path of the file map that is not a base group — the full
path only, never an intermediate prefix — with the parent field set to the
path minus its last segment (whether or not such a group exists). -/
theorem C5_amended_groups (fm : List (String × String)) :
    ((UltimateFix.subgroupsFor fm).map UltimateFix.Subgroup.key).Nodup ∧
    (∀ g ∈ UltimateFix.subgroupsFor fm,
      g.key ∈ fm.map Prod.snd ∧
      UltimateFix.baseKeys.contains g.key = false ∧
      g.parent = joinSlash (pySplitChar '/' g.key).dropLast) := by
  constructor
  · rw [UltimateFix.subgroupsFor, UltimateFix.mkSubgroups_map_key]
    exact UltimateFix.newGroupsNeeded_nodup fm
  · intro g hg
    have hk : g.key ∈ UltimateFix.newGroupsNeeded fm := by
      have hmk := UltimateFix.mkSubgroups_map_key (UltimateFix.newGroupsNeeded fm) 80000
      rw [UltimateFix.subgroupsFor] at hg
      rw [← hmk]
      exact List.mem_map_of_mem UltimateFix.Subgroup.key hg
    have hmem := (UltimateFix.mem_newGroupsNeeded fm g.key).mp hk
    have hf := UltimateFix.mkSubgroups_fields (UltimateFix.newGroupsNeeded fm) 80000 g
      (by rw [UltimateFix.subgroupsFor] at hg; exact hg)
    exact ⟨hmem.1, hmem.2, hf.2.2⟩


/-- Claim C6 counterexample: `manual_fix.py` creates a BuildBinding and a
phase-membership line for EVERY file it adds, with no kind check: the
packaged data-model bundle gets the reference type `wrapper.xcdatamodeld`
yet still receives one build line and one phase-membership line. -/
theorem C6_counterexample :
    ManualFix.ftypeFor "ZairyuMateDataModel.xcdatamodeld" = "wrapper.xcdatamodeld" ∧
    (ManualFix.genEntries ["ZairyuMateDataModel.xcdatamodeld"] 60000).builds.length = 1 ∧
    (ManualFix.genEntries ["ZairyuMateDataModel.xcdatamodeld"] 60000).sources.length = 1 := by
  refine ⟨by decide, ?_, ?_⟩ <;> rfl

/-- Claim C6 (amended): in `add-files-to-xcode.py` the claimed conservation
does hold: every selected file gets exactly one file reference, and a build
line and a phase-membership entry are created exactly for the files whose
type is `sourcecode.swift`. -/
theorem C6_amended_conservation (uuids : Nat → String) (fs : List AddFiles.FileSpec) (k : Nat) :
    (AddFiles.generate uuids fs k).file_refs.length = fs.length ∧
    (AddFiles.generate uuids fs k).build_files.length
      = (fs.filter (fun f => f.ftype == "sourcecode.swift")).length ∧
    (AddFiles.generate uuids fs k).sources_track.map Prod.snd
      = (fs.filter (fun f => f.ftype == "sourcecode.swift")).map AddFiles.FileSpec.name := by
  induction fs generalizing k with
  | nil => exact ⟨rfl, rfl, rfl⟩
  | cons f t ih =>
    rcases ih (k + 2) with ⟨h1, h2, h3⟩
    by_cases h : (f.ftype == "sourcecode.swift") = true
    · simp [AddFiles.generate, List.filter_cons, h, h1, h2, h3]
    · simp only [Bool.not_eq_true] at h
      simp [AddFiles.generate, List.filter_cons, h, h1, h2, h3]


theorem rewriteAux_src_case (b r s : List String) (line l1 l2 l3 : String)
    (rest2 : List String) (a : List String) (cl : String) (c : List String) (bl : String)
    (rest4 : List String)
    (h1 : strContains line ManualFix.endBuildMark = false)
    (h2 : strContains line ManualFix.endRefMark = false)
    (h3 : strContains line ManualFix.srcAnchor = true)
    (h4 : strContains l1 ManualFix.phaseIsa = true)
    (hp : phaseSplit rest2 = some (a, cl, c, bl, rest4)) :
    ManualFix.rewriteAux b r s (line :: l1 :: l2 :: l3 :: rest2) =
      (ManualFix.rewriteAux b r s rest4).map
        (fun o => line :: l1 :: l2 :: l3 :: (a ++ s ++ cl :: (c ++ bl :: o))) := by
  rw [ManualFix.rewriteAux.eq_def]
  simp only [h1, h2, h3, h4, Bool.false_eq_true, if_false, if_true]
  split
  · rename_i heq
    rw [heq] at hp
    exact absurd hp (by simp)
  · rename_i a0 cl0 c0 bl0 rest40 heq
    rw [heq] at hp
    simp only [Option.some.injEq, Prod.mk.injEq] at hp
    obtain ⟨ha, hcl, hc, hbl, hr⟩ := hp
    subst ha
    subst hcl
    subst hc
    subst hbl
    subst hr
    rfl


/-- Claim C7 counterexample: `add-files-to-xcode.py` inserts the new
phase-membership entries right after the `files = (` delimiter, i.e.
BEFORE every pre-existing entry, not appended after them. -/
theorem C7_counterexample :
    AddFiles.addLoop [] [] [("NEWID", "Foo.swift")] (fun _ => []) false
      ["/* Begin PBXSourcesBuildPhase section */",
       "\t\t\t\tfiles = (",
       "\t\t\t\tOLDID /* Old.swift in Sources */,",
       "\t\t\t\t);"] =
      ["/* Begin PBXSourcesBuildPhase section */",
       "\t\t\t\tfiles = (",
       "\t\t\t\tNEWID /* Foo.swift in Sources */,",
       "\t\t\t\tOLDID /* Old.swift in Sources */,",
       "\t\t\t\t);"] ∧
    AddFiles.addLoop [] [] [("NEWID", "Foo.swift")] (fun _ => []) false
      ["/* Begin PBXSourcesBuildPhase section */",
       "\t\t\t\tfiles = (",
       "\t\t\t\tOLDID /* Old.swift in Sources */,",
       "\t\t\t\t);"] ≠
      ["/* Begin PBXSourcesBuildPhase section */",
       "\t\t\t\tfiles = (",
       "\t\t\t\tOLDID /* Old.swift in Sources */,",
       "\t\t\t\tNEWID /* Foo.swift in Sources */,",
       "\t\t\t\t);"] := by
  refine ⟨by decide, by decide⟩

/-- Claim C7 (amended): `manual_fix.py` does append at the end: in a
Sources-phase block whose pre-existing entry lines `pre` do not contain
the closing token, the rewrite reproduces `pre` byte-identically in its
original order and places every new phase-membership line after all of
`pre` (right before the closing delimiter). -/
theorem C7_amended_append (b r s : List String) (pre rest4 : List String)
    (hpre : ∀ l ∈ pre, strContains l ");" = false) :
    ManualFix.rewriteAux b r s
      ("\t\tA10000042 /* Sources */ = \x7b" :: "\t\t\tisa = PBXSourcesBuildPhase;" ::
       "\t\t\tbuildActionMask = 2147483647;" :: "\t\t\tfiles = (" ::
       (pre ++ "\t\t\t);" :: "\t\t\x7d;" :: rest4)) =
      (ManualFix.rewriteAux b r s rest4).map
        (fun o => "\t\tA10000042 /* Sources */ = \x7b" :: "\t\t\tisa = PBXSourcesBuildPhase;" ::
          "\t\t\tbuildActionMask = 2147483647;" :: "\t\t\tfiles = (" ::
          (pre ++ s ++ "\t\t\t);" :: "\t\t\x7d;" :: o)) := by
  have h2 : copyUntil "\x7d;" ("\t\t\x7d;" :: rest4) = ([], "\t\t\x7d;" :: rest4) := by
    rw [copyUntil]
    rw [if_pos (show strContains "\t\t\x7d;" "\x7d;" = true from by decide)]
  have hp : phaseSplit (pre ++ "\t\t\t);" :: "\t\t\x7d;" :: rest4)
      = some (pre, "\t\t\t);", [], "\t\t\x7d;", rest4) := by
    unfold phaseSplit
    rw [copyUntil_stops ");" pre "\t\t\t);" ("\t\t\x7d;" :: rest4) hpre (by decide)]
    dsimp only
    rw [h2]
  exact rewriteAux_src_case b r s _ _ _ _ _ pre _ [] _ rest4
    (by decide) (by decide) (by decide) (by decide) hp

/-- Witness for `C7_amended_append`: one pre-existing entry, one new
phase-membership line; the new line lands after the old one. -/
theorem C7_amended_append_witness :
    (∀ l ∈ ["\t\t\t\tA10000001 /* Old.swift in Sources */,"], strContains l ");" = false) ∧
    ManualFix.rewriteAux [] [] ["\t\t\t\tNEWID /* Foo.swift in Sources */,"]
      ["\t\tA10000042 /* Sources */ = \x7b", "\t\t\tisa = PBXSourcesBuildPhase;",
       "\t\t\tbuildActionMask = 2147483647;", "\t\t\tfiles = (",
       "\t\t\t\tA10000001 /* Old.swift in Sources */,", "\t\t\t);", "\t\t\x7d;"] =
      some ["\t\tA10000042 /* Sources */ = \x7b", "\t\t\tisa = PBXSourcesBuildPhase;",
       "\t\t\tbuildActionMask = 2147483647;", "\t\t\tfiles = (",
       "\t\t\t\tA10000001 /* Old.swift in Sources */,",
       "\t\t\t\tNEWID /* Foo.swift in Sources */,", "\t\t\t);", "\t\t\x7d;"] := by
  refine ⟨by decide, ?_⟩
  have h := C7_amended_append [] [] ["\t\t\t\tNEWID /* Foo.swift in Sources */,"]
    ["\t\t\t\tA10000001 /* Old.swift in Sources */,"] [] (by decide)
  rw [show ("\t\t\t\tA10000001 /* Old.swift in Sources */," :: "\t\t\t);" :: "\t\t\x7d;" :: ([] : List String))
      = ["\t\t\t\tA10000001 /* Old.swift in Sources */,"] ++ "\t\t\t);" :: "\t\t\x7d;" :: ([] : List String)
      from rfl]
  rw [h]
  rw [show ManualFix.rewriteAux [] [] ["\t\t\t\tNEWID /* Foo.swift in Sources */,"] [] = some []
      from by rw [ManualFix.rewriteAux.eq_def]]
  rfl


/-- Claim C8: in `manual_fix.py`, if the post-write sentinel validation
fails the original pre-mutation document is written back (the on-disk
manifest equals the pre-run document), the run reports the failure
outcome, and the backup of the original is saved in every outcome. -/
theorem C8_restore_and_backup (original : String) (newFiles : List String) :
    ((ManualFix.run original newFiles).outcome = ManualFix.Outcome.validationFailed →
      ManualFix.finalDisk original (ManualFix.run original newFiles) = original) ∧
    (ManualFix.run original newFiles).backupSaved = some original := by
  unfold ManualFix.run
  dsimp only
  split
  · exact ⟨fun _ => rfl, rfl⟩
  · split
    · exact ⟨(nomatch ·), rfl⟩
    · exact ⟨fun _ => rfl, rfl⟩

/-- Witness for `C8_restore_and_backup`: on the sentinel-free document
`"hello\n"` the validation fails, the original text is restored, and the
backup is retained. -/
theorem C8_restore_and_backup_witness :
    (ManualFix.run "hello\n" []).outcome = ManualFix.Outcome.validationFailed ∧
    ManualFix.finalDisk "hello\n" (ManualFix.run "hello\n" []) = "hello\n" ∧
    (ManualFix.run "hello\n" []).backupSaved = some "hello\n" := by
  have hrun : ManualFix.run "hello\n" [] =
      ⟨["hello\n", "hello\n"], some "hello\n", ManualFix.Outcome.validationFailed⟩ := by
    unfold ManualFix.run
    dsimp only
    rw [show ManualFix.genEntries [] 60000 = ⟨[], [], []⟩ from rfl]
    dsimp only
    rw [show pySplitlines "hello\n" = ["hello"] from by decide]
    rw [show ManualFix.rewriteAux [] [] [] ["hello"] = some ["hello"] from by
      rw [ManualFix.rewriteAux.eq_def]
      show (ManualFix.rewriteAux [] [] [] []).map (fun o => "hello" :: o) = _
      rw [ManualFix.rewriteAux.eq_def]
      rfl]
    decide
  refine ⟨by rw [hrun], (C8_restore_and_backup "hello\n" []).1 (by rw [hrun]),
    (C8_restore_and_backup "hello\n" []).2⟩


/-- Evaluation of the `manual_fix.py` run with no files to add on a
two-sentinel document without a trailing newline. -/
theorem manualRunEmptyDoc :
    ManualFix.run "/* End PBXBuildFile section */\n/* End PBXFileReference section */" [] =
      ⟨["/* End PBXBuildFile section */\n/* End PBXFileReference section */\n"],
       some "/* End PBXBuildFile section */\n/* End PBXFileReference section */",
       ManualFix.Outcome.ok⟩ := by
  have e0 : ManualFix.rewriteAux [] [] [] [] = some [] := by
    rw [ManualFix.rewriteAux.eq_def]
  have e1 : ManualFix.rewriteAux [] [] [] ["/* End PBXFileReference section */"] =
      some ["/* End PBXFileReference section */"] := by
    rw [ManualFix.rewriteAux.eq_def]
    show (ManualFix.rewriteAux [] [] [] []).map
      (fun o => ([] : List String) ++ "/* End PBXFileReference section */" :: o) = _
    rw [e0]
    rfl
  have e2 : ManualFix.rewriteAux [] [] [] ["/* End PBXBuildFile section */", "/* End PBXFileReference section */"] =
      some ["/* End PBXBuildFile section */", "/* End PBXFileReference section */"] := by
    rw [ManualFix.rewriteAux.eq_def]
    show (ManualFix.rewriteAux [] [] [] ["/* End PBXFileReference section */"]).map
      (fun o => ([] : List String) ++ "/* End PBXBuildFile section */" :: o) = _
    rw [e1]
    rfl
  unfold ManualFix.run
  dsimp only
  rw [show ManualFix.genEntries [] 60000 = ⟨[], [], []⟩ from rfl]
  dsimp only
  rw [show pySplitlines "/* End PBXBuildFile section */\n/* End PBXFileReference section */"
      = ["/* End PBXBuildFile section */", "/* End PBXFileReference section */"] from by decide]
  rw [e2]
  decide

/-- Claim C9 counterexample: on a manifest that ends without a trailing
newline, patching with an empty file list still rewrites the document:
the run completes, and the written text is the input plus an appended
newline — not byte-identical to the input. -/
theorem C9_counterexample :
    (ManualFix.run "/* End PBXBuildFile section */\n/* End PBXFileReference section */" []).outcome = ManualFix.Outcome.ok ∧
    ManualFix.finalDisk "/* End PBXBuildFile section */\n/* End PBXFileReference section */"
      (ManualFix.run "/* End PBXBuildFile section */\n/* End PBXFileReference section */" []) =
      "/* End PBXBuildFile section */\n/* End PBXFileReference section */" ++ "\n" ∧
    ManualFix.finalDisk "/* End PBXBuildFile section */\n/* End PBXFileReference section */"
      (ManualFix.run "/* End PBXBuildFile section */\n/* End PBXFileReference section */" []) ≠
      "/* End PBXBuildFile section */\n/* End PBXFileReference section */" := by
  refine ⟨by rw [manualRunEmptyDoc], by rw [manualRunEmptyDoc]; rfl, by rw [manualRunEmptyDoc]; decide⟩

/-- Claim C9 (amended): patching with no new files is the identity only up
to line re-termination: whenever such a run completes successfully, the
document on disk is exactly `joinNL (pySplitlines original) ++ "\n"` —
the input's lines joined with `\n` and a forced final newline. -/
theorem C9_amended_empty_patch (original : String)
    (h : (ManualFix.run original []).outcome = ManualFix.Outcome.ok) :
    ManualFix.finalDisk original (ManualFix.run original []) =
      joinNL (pySplitlines original) ++ "\n" := by
  unfold ManualFix.run at h ⊢
  dsimp only at h ⊢
  rw [show ManualFix.genEntries [] 60000 = ⟨[], [], []⟩ from rfl] at h ⊢
  dsimp only at h ⊢
  rcases hre : ManualFix.rewriteAux [] [] [] (pySplitlines original) with _ | out
  · rw [hre] at h
    exact nomatch h
  · rw [hre] at h
    dsimp only at h ⊢
    by_cases hv : ManualFix.validate (joinNL out ++ "\n") = true
    · rw [if_pos hv]
      rw [ManualFix.rewriteAux_empty_id (pySplitlines original) out hre]
      rfl
    · rw [if_neg hv] at h
      exact nomatch h

/-- Witness for `C9_amended_empty_patch` on a two-sentinel document. -/
theorem C9_amended_empty_patch_witness :
    (ManualFix.run "/* End PBXBuildFile section */\n/* End PBXFileReference section */" []).outcome = ManualFix.Outcome.ok ∧
    ManualFix.finalDisk "/* End PBXBuildFile section */\n/* End PBXFileReference section */"
      (ManualFix.run "/* End PBXBuildFile section */\n/* End PBXFileReference section */" []) =
      joinNL (pySplitlines "/* End PBXBuildFile section */\n/* End PBXFileReference section */") ++ "\n" :=
  ⟨by rw [manualRunEmptyDoc],
   C9_amended_empty_patch "/* End PBXBuildFile section */\n/* End PBXFileReference section */" (by rw [manualRunEmptyDoc])⟩


/-- Claim C10 counterexample: the premise "every line of the input is
copied into the output" fails for `ULTIMATE_FIX.py`: on a document whose
build-file end sentinel directly follows a matched group block, the
rewrite completes without an exception yet DROPS that sentinel line (and
duplicates the group header), so the post-write validation fails even
though the input contained both checked sentinel lines. -/
theorem C10_counterexample :
    (∃ l ∈ ["\t\tA10000024 /* Core */ = \x7b", "\t\t\tisa = PBXGroup;", "\t\t\tchildren = (", "\t\t\t);", "\t\t\x7d;", "/* End PBXBuildFile section */", "/* End PBXGroup section */"],
      strContains l UltimateFix.endBuildMark = true) ∧
    (∃ l ∈ ["\t\tA10000024 /* Core */ = \x7b", "\t\t\tisa = PBXGroup;", "\t\t\tchildren = (", "\t\t\t);", "\t\t\x7d;", "/* End PBXBuildFile section */", "/* End PBXGroup section */"],
      strContains l UltimateFix.endGroupMark = true) ∧
    UltimateFix.runRewrite []
      ["\t\tA10000024 /* Core */ = \x7b", "\t\t\tisa = PBXGroup;", "\t\t\tchildren = (", "\t\t\t);", "\t\t\x7d;", "/* End PBXBuildFile section */", "/* End PBXGroup section */"] =
      some ["\t\tA10000024 /* Core */ = \x7b", "\t\t\tisa = PBXGroup;", "\t\t\tchildren = (", "\t\t\t);", "\t\t\x7d;", "\t\tA10000024 /* Core */ = \x7b", "/* End PBXGroup section */"] ∧
    UltimateFix.validateU
      (joinNL ["\t\tA10000024 /* Core */ = \x7b", "\t\t\tisa = PBXGroup;", "\t\t\tchildren = (", "\t\t\t);", "\t\t\x7d;", "\t\tA10000024 /* Core */ = \x7b", "/* End PBXGroup section */"]) = false := by
  have s1 : UltimateFix.stepU (UltimateFix.buildsFor []) (UltimateFix.refsFor [])
      (UltimateFix.sourcesFor []) (UltimateFix.augGroups []) (UltimateFix.baseFilesFor [])
      (UltimateFix.subgroupsFor []) (UltimateFix.subgroupFilesFor [])
      "\t\tA10000024 /* Core */ = \x7b" ["\t\t\tisa = PBXGroup;", "\t\t\tchildren = (", "\t\t\t);", "\t\t\x7d;", "/* End PBXBuildFile section */", "/* End PBXGroup section */"] =
      some (["\t\tA10000024 /* Core */ = \x7b", "\t\t\tisa = PBXGroup;", "\t\t\tchildren = (", "\t\t\t);", "\t\t\x7d;", "\t\tA10000024 /* Core */ = \x7b"], ["/* End PBXGroup section */"]) := by decide
  have s2 : UltimateFix.stepU (UltimateFix.buildsFor []) (UltimateFix.refsFor [])
      (UltimateFix.sourcesFor []) (UltimateFix.augGroups []) (UltimateFix.baseFilesFor [])
      (UltimateFix.subgroupsFor []) (UltimateFix.subgroupFilesFor [])
      "/* End PBXGroup section */" [] = some (["/* End PBXGroup section */"], []) := by decide
  refine ⟨⟨"/* End PBXBuildFile section */", by decide, by decide⟩, ⟨"/* End PBXGroup section */", by decide, by decide⟩, ?_, by decide⟩
  unfold UltimateFix.runRewrite
  rw [UltimateFix.rewriteU_cons _ _ _ _ _ _ _ _ _ _ _ s1,
      UltimateFix.rewriteU_cons _ _ _ _ _ _ _ _ _ _ _ s2,
      UltimateFix.rewriteU_nil]
  rfl

/-- Claim C10 (amended): for `manual_fix.py` the implication DOES hold,
because its rewrite loop really copies every input line: whenever the
rewrite completes and the input held a line containing each checked end
sentinel, the post-write substring validation succeeds. -/
theorem C10_amended_validation (b r s : List String) (lines out : List String)
    (h : ManualFix.rewriteAux b r s lines = some out) (lb lr : String)
    (hlb : lb ∈ lines) (hlbc : strContains lb ManualFix.endBuildMark = true)
    (hlr : lr ∈ lines) (hlrc : strContains lr ManualFix.endRefMark = true) :
    ManualFix.validate (joinNL out ++ "\n") = true := by
  have hsub := ManualFix.rewriteAux_sublist b r s lines out h
  have hext : ∀ pat l0 : String, l0 ∈ out → strContains l0 pat = true →
      strContains (joinNL out ++ "\n") pat = true := by
    intro pat l0 hl0 hp
    have h1 := strContains_of_line (joinNL out) l0 pat (joinNL_data_of_mem l0 out hl0) hp
    rw [strContains_iff] at h1 ⊢
    rw [String.data_append]
    exact h1.trans (List.prefix_append _ _).isInfix
  unfold ManualFix.validate
  rw [hext ManualFix.endBuildMark lb (hsub.subset hlb) hlbc,
      hext ManualFix.endRefMark lr (hsub.subset hlr) hlrc]
  rfl

/-- Witness for `C10_amended_validation` on the two-sentinel document. -/
theorem C10_amended_validation_witness :
    ManualFix.rewriteAux [] [] [] ["/* End PBXBuildFile section */", "/* End PBXFileReference section */"] = some ["/* End PBXBuildFile section */", "/* End PBXFileReference section */"] ∧
    ManualFix.validate (joinNL ["/* End PBXBuildFile section */", "/* End PBXFileReference section */"] ++ "\n") = true := by
  have e0 : ManualFix.rewriteAux [] [] [] [] = some [] := by
    rw [ManualFix.rewriteAux.eq_def]
  have e1 : ManualFix.rewriteAux [] [] [] ["/* End PBXFileReference section */"] = some ["/* End PBXFileReference section */"] := by
    rw [ManualFix.rewriteAux.eq_def]
    show (ManualFix.rewriteAux [] [] [] []).map
      (fun o => ([] : List String) ++ "/* End PBXFileReference section */" :: o) = _
    rw [e0]
    rfl
  have e2 : ManualFix.rewriteAux [] [] [] ["/* End PBXBuildFile section */", "/* End PBXFileReference section */"] = some ["/* End PBXBuildFile section */", "/* End PBXFileReference section */"] := by
    rw [ManualFix.rewriteAux.eq_def]
    show (ManualFix.rewriteAux [] [] [] ["/* End PBXFileReference section */"]).map
      (fun o => ([] : List String) ++ "/* End PBXBuildFile section */" :: o) = _
    rw [e1]
    rfl
  exact ⟨e2, C10_amended_validation [] [] [] ["/* End PBXBuildFile section */", "/* End PBXFileReference section */"] ["/* End PBXBuildFile section */", "/* End PBXFileReference section */"] e2
    "/* End PBXBuildFile section */" "/* End PBXFileReference section */" (by decide) (by decide) (by decide) (by decide)⟩

end ZairyuMate
